import Mathlib

/-!
Shallow embedding of `sewer/ACMEclient.py` (the ACME protocol client) and
proofs about it.  Python strings are Lean `String`s, Python `bytes` are
`List UInt8`, machine-level crypto primitives (RSA signing, SHA-256) are
abstract function parameters exactly where the code calls into OpenSSL or
hashlib, and every fallible Python operation is an `Except PyErr` value.
Dynamic-name resolution (Python `NameError`) is modelled by an explicit
lookup against the local bindings a function body actually creates.
-/

namespace Sewer

/-- Python exceptions raised by the paths of `ACMEclient.py` that we model.
`nameError` carries just the unbound name, `keyError` the missing key,
`attributeError` the missing attribute; `valueError` carries the full
formatted message the code builds. -/
inductive PyErr where
  | nameError : String → PyErr
  | valueError : String → PyErr
  | attributeError : String → PyErr
  | typeError : String → PyErr
  | keyError : String → PyErr
  | indexError : String → PyErr
  | binasciiError : String → PyErr
  | requestError : String → PyErr
deriving DecidableEq, Repr

/-- UTF-8 encoding of one character, as Python `str.encode` produces it. -/
def utf8EncodeChar (c : Char) : List UInt8 :=
  let n := c.toNat
  if n < 0x80 then [UInt8.ofNat n]
  else if n < 0x800 then
    [UInt8.ofNat (0xC0 + n / 0x40), UInt8.ofNat (0x80 + n % 0x40)]
  else if n < 0x10000 then
    [UInt8.ofNat (0xE0 + n / 0x1000), UInt8.ofNat (0x80 + n / 0x40 % 0x40),
     UInt8.ofNat (0x80 + n % 0x40)]
  else
    [UInt8.ofNat (0xF0 + n / 0x40000), UInt8.ofNat (0x80 + n / 0x1000 % 0x40),
     UInt8.ofNat (0x80 + n / 0x40 % 0x40), UInt8.ofNat (0x80 + n % 0x40)]

/-- Python `s.encode('utf8')`. -/
def utf8Bytes (s : String) : List UInt8 :=
  (s.data.map utf8EncodeChar).flatten

/-- The lowercase hex digit for a value below 16, as `"{0:x}".format` uses. -/
def hexDigitChar (k : Nat) : Char :=
  if k < 10 then Char.ofNat (48 + k) else Char.ofNat (87 + k)

/-- The value of a hex digit character accepted by `binascii.unhexlify`. -/
def hexCharVal (c : Char) : Option Nat :=
  if 48 ≤ c.toNat ∧ c.toNat ≤ 57 then some (c.toNat - 48)
  else if 97 ≤ c.toNat ∧ c.toNat ≤ 102 then some (c.toNat - 87)
  else if 65 ≤ c.toNat ∧ c.toNat ≤ 70 then some (c.toNat - 55)
  else none

/-- Hex digits of `n`, most significant first, empty for `0`; `fuel` bounds
the recursion and any `fuel ≥ n` gives the true digits. -/
def hexDigitsAux : Nat → Nat → List Char
  | 0, _ => []
  | fuel + 1, n =>
    if n = 0 then [] else hexDigitsAux fuel (n / 16) ++ [hexDigitChar (n % 16)]

/-- Python `"{0:x}".format(n)` as a character list (lowercase, no leading
zeros, `"0"` for zero). -/
def hexOfNatChars (n : Nat) : List Char :=
  if n = 0 then ['0'] else hexDigitsAux n n

/-- Python `"{0:x}".format(n)`. -/
def hexOfNat (n : Nat) : String := ⟨hexOfNatChars n⟩

/-- Prepend `'0'` when the digit list has odd length, as the code does for
the RSA exponent before `unhexlify`. -/
def padEvenChars (l : List Char) : List Char :=
  if l.length % 2 = 1 then '0' :: l else l

/-- The string form of `padEvenChars`: `"0{0}".format(s) if len(s) % 2 else s`. -/
def padEven (s : String) : String :=
  if s.length % 2 = 1 then "0" ++ s else s

/-- Pairs of hex digits decoded into bytes, most significant digit first. -/
def unhexChars : List Char → Except PyErr (List UInt8)
  | [] => .ok []
  | [_] => .error (.binasciiError "Odd-length string")
  | c1 :: c2 :: rest =>
    match hexCharVal c1, hexCharVal c2 with
    | some h, some l =>
      match unhexChars rest with
      | .ok bs => .ok (UInt8.ofNat (16 * h + l) :: bs)
      | .error e => .error e
    | _, _ => .error (.binasciiError "Non-hexadecimal digit found")

/-- Python `binascii.unhexlify`: rejects odd-length input, else decodes hex
digit pairs into bytes. -/
def unhexlify (s : String) : Except PyErr (List UInt8) :=
  if s.length % 2 = 1 then .error (.binasciiError "Odd-length string")
  else unhexChars s.data

/-- Minimal big-endian byte string of `n`; `fuel` bounds the recursion and
any `fuel ≥ n` gives the true bytes. -/
def beBytesAux : Nat → Nat → List UInt8
  | 0, _ => []
  | fuel + 1, n =>
    if n = 0 then [] else beBytesAux fuel (n / 256) ++ [UInt8.ofNat (n % 256)]

/-- The big-endian bytes of `n`, even-length-padded in the sense of the spec:
the bytes `unhexlify` yields from the even-length-padded hex of `n`
(`[0x00]` for zero). -/
def beBytes (n : Nat) : List UInt8 :=
  if n = 0 then [0] else beBytesAux n n

/-- The base64url alphabet (RFC 4648 `-`/`_` variant) used by
`base64.urlsafe_b64encode`. -/
def b64UrlChar (i : Nat) : Char :=
  if i < 26 then Char.ofNat (65 + i)
  else if i < 52 then Char.ofNat (97 + (i - 26))
  else if i < 62 then Char.ofNat (48 + (i - 52))
  else if i = 62 then '-' else '_'

/-- The standard base64 alphabet used by `base64.b64encode`. -/
def b64StdChar (i : Nat) : Char :=
  if i < 26 then Char.ofNat (65 + i)
  else if i < 52 then Char.ofNat (97 + (i - 26))
  else if i < 62 then Char.ofNat (48 + (i - 52))
  else if i = 62 then '+' else '/'

/-- Base64 encoding of a byte list over the given alphabet, with `'='`
padding, three input bytes per four output characters. -/
def b64Groups (tbl : Nat → Char) : List UInt8 → List Char
  | [] => []
  | [a] =>
    let x := a.toNat
    [tbl (x / 4), tbl (x % 4 * 16), '=', '=']
  | [a, b] =>
    let x := a.toNat; let y := b.toNat
    [tbl (x / 4), tbl (x % 4 * 16 + y / 16), tbl (y % 16 * 4), '=']
  | a :: b :: c :: rest =>
    let x := a.toNat; let y := b.toNat; let z := c.toNat
    tbl (x / 4) :: tbl (x % 4 * 16 + y / 16) :: tbl (y % 16 * 4 + z / 64) ::
      tbl (z % 64) :: b64Groups tbl rest

/-- Python `base64.urlsafe_b64encode(bs)` followed by `.decode('utf8')`
(the encoder output is ASCII). -/
def urlsafeB64encode (bs : List UInt8) : String := ⟨b64Groups b64UrlChar bs⟩

/-- Python `base64.b64encode(bs)` followed by `.decode('utf-8')`. -/
def b64encode (bs : List UInt8) : String := ⟨b64Groups b64StdChar bs⟩

/-- Python bytes or str, as `calculate_safe_base64` accepts either. -/
inductive PyVal where
  | str : String → PyVal
  | bytes : List UInt8 → PyVal
deriving DecidableEq, Repr

/-- Drop the trailing `'='` characters, Python `rstrip(b'=')`. -/
def stripPadChars (l : List Char) : List Char :=
  (l.reverse.dropWhile (· = '=')).reverse

/-- `ACMEclient.calculate_safe_base64`: utf8-encode a str input, urlsafe
base64 the bytes, strip `'='` padding, return a str. -/
def calculate_safe_base64 (v : PyVal) : String :=
  match v with
  | .str s => ⟨stripPadChars (b64Groups b64UrlChar (utf8Bytes s))⟩
  | .bytes b => ⟨stripPadChars (b64Groups b64UrlChar b)⟩

deriving instance DecidableEq for Except

theorem hexDigitsAux_zero (f : Nat) : hexDigitsAux f 0 = [] := by
  cases f <;> simp [hexDigitsAux]

theorem hexDigitsAux_fuel (f1 : Nat) :
    ∀ (f2 n : Nat), n ≤ f1 → n ≤ f2 → hexDigitsAux f1 n = hexDigitsAux f2 n := by
  induction f1 with
  | zero =>
    intro f2 n h1 _
    have hn : n = 0 := by omega
    subst hn
    rw [hexDigitsAux_zero, hexDigitsAux_zero]
  | succ f ih =>
    intro f2 n h1 h2
    by_cases hn : n = 0
    · subst hn; rw [hexDigitsAux_zero, hexDigitsAux_zero]
    · have hlt : n / 16 < n := Nat.div_lt_self (by omega) (by omega)
      cases f2 with
      | zero => omega
      | succ g =>
        simp only [hexDigitsAux, if_neg hn]
        rw [ih g (n / 16) (by omega) (by omega)]

theorem beBytesAux_zero (f : Nat) : beBytesAux f 0 = [] := by
  cases f <;> simp [beBytesAux]

theorem beBytesAux_fuel (f1 : Nat) :
    ∀ (f2 n : Nat), n ≤ f1 → n ≤ f2 → beBytesAux f1 n = beBytesAux f2 n := by
  induction f1 with
  | zero =>
    intro f2 n h1 _
    have hn : n = 0 := by omega
    subst hn
    rw [beBytesAux_zero, beBytesAux_zero]
  | succ f ih =>
    intro f2 n h1 h2
    by_cases hn : n = 0
    · subst hn; rw [beBytesAux_zero, beBytesAux_zero]
    · have hlt : n / 256 < n := Nat.div_lt_self (by omega) (by omega)
      cases f2 with
      | zero => omega
      | succ g =>
        simp only [beBytesAux, if_neg hn]
        rw [ih g (n / 256) (by omega) (by omega)]

theorem hexCharVal_hexDigitChar : ∀ k, k < 16 → hexCharVal (hexDigitChar k) = some k := by
  decide

theorem padEvenChars_append_two (l : List Char) (x y : Char) :
    padEvenChars (l ++ [x, y]) = padEvenChars l ++ [x, y] := by
  unfold padEvenChars
  rcases Nat.even_or_odd l.length with h | h
  · rw [if_neg, if_neg] <;> simp [List.length_append, Nat.even_iff] at h ⊢ <;> omega
  · rw [if_pos, if_pos] <;> simp [List.length_append, Nat.odd_iff] at h ⊢ <;> omega

theorem unhexChars_append :
    ∀ (a : List Char), ∀ (b : List Char) (u : List UInt8), unhexChars a = .ok u →
      unhexChars (a ++ b) = (unhexChars b).map (u ++ ·)
  | [], b, u, h => by
    have hu : ([] : List UInt8) = u := Except.ok.inj h
    subst hu
    simp only [List.nil_append]
    cases hb : unhexChars b <;> simp [Except.map, hb]
  | [c], b, u, h => by
    simp [unhexChars] at h
  | c1 :: c2 :: rest, b, u, h => by
    have ih := unhexChars_append rest
    cases hv1 : hexCharVal c1 with
    | none => simp [unhexChars, hv1] at h
    | some hd =>
      cases hv2 : hexCharVal c2 with
      | none => simp [unhexChars, hv1, hv2] at h
      | some ld =>
        cases hr : unhexChars rest with
        | error e => simp [unhexChars, hv1, hv2, hr] at h
        | ok v =>
          simp only [unhexChars, hv1, hv2, hr] at h
          have hu : UInt8.ofNat (16 * hd + ld) :: v = u := Except.ok.inj h
          subst hu
          simp only [List.cons_append, unhexChars, hv1, hv2, List.append_eq]
          rw [ih b v hr]
          cases hb : unhexChars b <;> simp [Except.map, hb]

set_option maxHeartbeats 1000000 in
set_option maxRecDepth 10000 in
theorem hexBytes_small : ∀ n, n < 256 →
    unhexChars (padEvenChars (hexOfNatChars n)) = .ok (beBytes n) := by
  decide

theorem hexOfNatChars_decomp (n : Nat) (h : 256 ≤ n) :
    hexOfNatChars n =
      hexOfNatChars (n / 256) ++ [hexDigitChar (n / 16 % 16), hexDigitChar (n % 16)] := by
  have h16 : 16 ≤ n / 16 := by omega
  have hq : n / 256 ≠ 0 := by omega
  have hdd : n / 16 / 16 = n / 256 := by
    rw [Nat.div_div_eq_div_mul]
  unfold hexOfNatChars
  rw [if_neg (by omega), if_neg hq]
  cases n with
  | zero => omega
  | succ m =>
    simp only [hexDigitsAux, if_neg (Nat.succ_ne_zero m)]
    cases m with
    | zero => omega
    | succ f =>
      have hne : (f + 1 + 1) / 16 ≠ 0 := by omega
      simp only [hexDigitsAux, if_neg hne]
      rw [hdd, hexDigitsAux_fuel f ((f + 1 + 1) / 256) ((f + 1 + 1) / 256) (by omega)
        (le_refl _)]
      simp

theorem beBytes_decomp (n : Nat) (h : 256 ≤ n) :
    beBytes n = beBytes (n / 256) ++ [UInt8.ofNat (n % 256)] := by
  have hq : n / 256 ≠ 0 := by omega
  unfold beBytes
  rw [if_neg (by omega), if_neg hq]
  cases n with
  | zero => omega
  | succ m =>
    simp only [beBytesAux, if_neg (Nat.succ_ne_zero m)]
    rw [beBytesAux_fuel m ((m + 1) / 256) ((m + 1) / 256) (by omega) (le_refl _)]

theorem hexBytes_bridge : ∀ n, unhexChars (padEvenChars (hexOfNatChars n)) = .ok (beBytes n) := by
  intro n
  induction n using Nat.strong_induction_on with
  | _ n ih =>
    by_cases h : n < 256
    · exact hexBytes_small n h
    · push_neg at h
      have hq : n / 256 < n := Nat.div_lt_self (by omega) (by omega)
      rw [hexOfNatChars_decomp n h, padEvenChars_append_two,
        unhexChars_append _ _ _ (ih (n / 256) hq), beBytes_decomp n h]
      have h1 := hexCharVal_hexDigitChar (n / 16 % 16) (Nat.mod_lt _ (by omega))
      have h2 := hexCharVal_hexDigitChar (n % 16) (Nat.mod_lt _ (by omega))
      have hb : 16 * (n / 16 % 16) + n % 16 = n % 256 := by omega
      simp only [unhexChars, h1, h2, Except.map, hb]

theorem padEvenChars_length_even (l : List Char) : (padEvenChars l).length % 2 = 0 := by
  unfold padEvenChars
  split <;> rename_i h
  · simp only [List.length_cons]; omega
  · omega

theorem unhexlify_padEven_hexOfNat (n : Nat) :
    unhexlify (padEven (hexOfNat n)) = .ok (beBytes n) := by
  have hmklen : ∀ l : List Char, (String.mk l).length = l.length := fun _ => rfl
  have hdata : (padEven (hexOfNat n)).data = padEvenChars (hexOfNatChars n) := by
    unfold padEven padEvenChars hexOfNat
    rw [hmklen]
    split <;> rfl
  have hlen : (padEven (hexOfNat n)).length % 2 = 0 := by
    have h1 : (padEven (hexOfNat n)).length = (padEven (hexOfNat n)).data.length := rfl
    rw [h1, hdata]
    exact padEvenChars_length_even _
  unfold unhexlify
  rw [if_neg (by omega), hdata]
  exact hexBytes_bridge n

theorem unhexlify_hexOfNat_even (n : Nat) (h : (hexOfNat n).length % 2 = 0) :
    unhexlify (hexOfNat n) = .ok (beBytes n) := by
  have hpad : padEven (hexOfNat n) = hexOfNat n := by
    unfold padEven
    rw [if_neg (by omega)]
  rw [← hpad]
  exact unhexlify_padEven_hexOfNat n

/-! ### Python JSON values
Mutually inductive so that every function over them is plain structural
recursion. `bytes` is a member because the code puts the DER CSR (a Python
`bytes`) into a payload dict, which `json.dumps` rejects with a `TypeError`. -/

mutual
inductive PyJson where
  | null : PyJson
  | bool : Bool → PyJson
  | str : String → PyJson
  | bytes : List UInt8 → PyJson
  | arr : PyJsonList → PyJson
  | obj : PyFields → PyJson
inductive PyJsonList where
  | nil : PyJsonList
  | cons : PyJson → PyJsonList → PyJsonList
inductive PyFields where
  | nil : PyFields
  | cons : String → PyJson → PyFields → PyFields
end

deriving instance DecidableEq for PyJson
deriving instance DecidableEq for PyJsonList
deriving instance DecidableEq for PyFields

/-- Four lowercase hex digits of a value below 0x10000, for `\uXXXX` escapes. -/
def hex4 (n : Nat) : List Char :=
  [hexDigitChar (n / 4096 % 16), hexDigitChar (n / 256 % 16),
   hexDigitChar (n / 16 % 16), hexDigitChar (n % 16)]

/-- One character of a JSON string as Python `json.dumps` renders it with the
default `ensure_ascii=True`: quote, backslash, the short control escapes, and
`\uXXXX` (surrogate pairs above the BMP) for the rest outside printable ASCII. -/
def jsonEscapeChar (c : Char) : List Char :=
  if c = '"' then ['\\', '"']
  else if c = '\\' then ['\\', '\\']
  else if c.toNat = 8 then ['\\', 'b']
  else if c.toNat = 9 then ['\\', 't']
  else if c.toNat = 10 then ['\\', 'n']
  else if c.toNat = 12 then ['\\', 'f']
  else if c.toNat = 13 then ['\\', 'r']
  else if c.toNat < 0x20 ∨ 0x7e < c.toNat then
    if c.toNat < 0x10000 then '\\' :: 'u' :: hex4 c.toNat
    else
      ('\\' :: 'u' :: hex4 (0xD800 + (c.toNat - 0x10000) / 0x400)) ++
        ('\\' :: 'u' :: hex4 (0xDC00 + (c.toNat - 0x10000) % 0x400))
  else [c]

/-- A JSON string literal for `s`. -/
def jsonQuote (s : String) : String :=
  ⟨'"' :: (s.data.map jsonEscapeChar).flatten ++ ['"']⟩

/-- Lexicographic comparison of char lists by code point, as Python compares
str values. -/
def charListLt : List Char → List Char → Bool
  | [], [] => false
  | [], _ :: _ => true
  | _ :: _, [] => false
  | c1 :: r1, c2 :: r2 =>
    if c1.toNat < c2.toNat then true
    else if c2.toNat < c1.toNat then false
    else charListLt r1 r2

/-- Python `a < b` on str. -/
def strLt (a b : String) : Bool := charListLt a.data b.data

/-- Insert a field into a key-sorted field list (ascending, as Python
`sorted` orders str keys by code point). -/
def insertField (k : String) (v : PyJson) : PyFields → PyFields
  | .nil => .cons k v .nil
  | .cons k2 v2 rest =>
    if strLt k2 k then .cons k2 v2 (insertField k v rest)
    else .cons k v (.cons k2 v2 rest)

/-- Sort a field list by key (values untouched). -/
def sortFields : PyFields → PyFields
  | .nil => .nil
  | .cons k v rest => insertField k v (sortFields rest)

/- Sort the keys of every object recursively; dumping the result without
sorting is `json.dumps` with `sort_keys=True`. -/
mutual
/-- Recursive key sort of a JSON value, see the comment above. -/
def sortJsonDeep : PyJson → PyJson
  | .null => .null
  | .bool b => .bool b
  | .str s => .str s
  | .bytes b => .bytes b
  | .arr l => .arr (sortJsonListDeep l)
  | .obj fs => .obj (sortFields (sortFieldsDeep fs))
termination_by structural j => j
def sortJsonListDeep : PyJsonList → PyJsonList
  | .nil => .nil
  | .cons j rest => .cons (sortJsonDeep j) (sortJsonListDeep rest)
termination_by structural l => l
def sortFieldsDeep : PyFields → PyFields
  | .nil => .nil
  | .cons k v rest => .cons k (sortJsonDeep v) (sortFieldsDeep rest)
termination_by structural fs => fs
end

/- Python `json.dumps` with item separator `itemSep` and key separator
`kvSep` (defaults are `", "` and `": "`; `get_keyauthorization` passes
compact separators).  A `bytes` value raises `TypeError` as in Python. -/
mutual
/-- Serialization of one JSON value, see the comment above. -/
def jsonDumps (itemSep kvSep : String) : PyJson → Except PyErr String
  | .null => .ok "null"
  | .bool b => .ok (if b then "true" else "false")
  | .str s => .ok (jsonQuote s)
  | .bytes _ => .error (.typeError "Object of type bytes is not JSON serializable")
  | .arr l =>
    match jsonDumpsList itemSep kvSep l with
    | .error e => .error e
    | .ok parts => .ok ("[" ++ String.intercalate itemSep parts ++ "]")
  | .obj fs =>
    match jsonDumpsFields itemSep kvSep fs with
    | .error e => .error e
    | .ok parts => .ok ("\x7b" ++ String.intercalate itemSep parts ++ "\x7d")
termination_by structural j => j
def jsonDumpsList (itemSep kvSep : String) : PyJsonList → Except PyErr (List String)
  | .nil => .ok []
  | .cons j rest =>
    match jsonDumps itemSep kvSep j with
    | .error e => .error e
    | .ok s =>
      match jsonDumpsList itemSep kvSep rest with
      | .error e => .error e
      | .ok r => .ok (s :: r)
termination_by structural l => l
def jsonDumpsFields (itemSep kvSep : String) : PyFields → Except PyErr (List String)
  | .nil => .ok []
  | .cons k v rest =>
    match jsonDumps itemSep kvSep v with
    | .error e => .error e
    | .ok s =>
      match jsonDumpsFields itemSep kvSep rest with
      | .error e => .error e
      | .ok r => .ok ((jsonQuote k ++ kvSep ++ s) :: r)
termination_by structural fs => fs
end

/-- `json.dumps(x)` with its default separators. -/
def jsonDumpsDefault (j : PyJson) : Except PyErr String := jsonDumps ", " ": " j

/-- `json.dumps(x, sort_keys=True, separators=(',', ':'))`. -/
def jsonDumpsCanonical (j : PyJson) : Except PyErr String :=
  jsonDumps "," ":" (sortJsonDeep j)

/-- The value of `fields[k]` when present (dict keys are unique in the dicts
the code builds and reads, so first match suffices). -/
def findField : PyFields → String → Option PyJson
  | .nil, _ => none
  | .cons k2 v rest, k => if k2 = k then some v else findField rest k

/-- Python `j[k]` on a parsed JSON value: `KeyError` when the key is absent,
`TypeError` when the value is not a dict. -/
def dictGet (j : PyJson) (k : String) : Except PyErr PyJson :=
  match j with
  | .obj fs =>
    match findField fs k with
    | some v => .ok v
    | none => .error (.keyError k)
  | _ => .error (.typeError "value is not subscriptable as a dict")

def pjNth : PyJsonList → Nat → Option PyJson
  | .nil, _ => none
  | .cons j _, 0 => some j
  | .cons _ rest, i + 1 => pjNth rest i

/-- Python `j[i]` on a parsed JSON value: `IndexError` when out of range,
`TypeError` when the value is not a list. -/
def listIndex (j : PyJson) (i : Nat) : Except PyErr PyJson :=
  match j with
  | .arr l =>
    match pjNth l i with
    | some v => .ok v
    | none => .error (.indexError "list index out of range")
  | _ => .error (.typeError "value is not subscriptable as a list")

/-- A parsed JSON value used where the code needs a str (URLs, tokens).  The
code itself would pass a non-str value straight through to the next HTTP
call; every run the claims mention carries str values here, so the non-str
case is closed off with a `TypeError`. -/
def asStr (j : PyJson) : Except PyErr String :=
  match j with
  | .str s => .ok s
  | _ => .error (.typeError "expected a str value")

/-! ### The client: configuration, state, environment -/

/-- The `ACMEclient` instance attributes fixed before the workflow runs: the
constructor arguments, the directory URLs, the RSA public numbers of the
account key (`e` and `n`, read through the crypto capability in
`get_acme_header`), the DER CSR bytes and the cached certificate chain
bytes. -/
structure ClientConfig where
  domain_name : String
  registration_recovery_email : Option String
  PRIOR_REGISTERED : Bool
  account_e : Nat
  account_n : Nat
  csr : List UInt8
  certificate_chain : List UInt8
  ACME_NEW_ACCOUNT_URL : String
  ACME_NEW_ORDER_URL : String
  ACME_REVOKE_CERT_URL : String

/-- An invocation of the DNS collaborator
(`dns_class.create_dns_record` / `dns_class.delete_dns_record`). -/
inductive DnsOp where
  | create : String → String → DnsOp
  | delete : String → String → DnsOp
deriving DecidableEq, Repr

/-- One HTTP request the client put on the wire; a signed POST also keeps the
protected-header dict that was serialized into its `protected64` field. -/
structure SentReq where
  method : String
  url : String
  protectedHeader : Option PyFields := none
  body : Option String := none
deriving DecidableEq

/-- Mutable client/run state: how many nonces were fetched, how many HTTP
requests were made, the `kid` set by `acme_register`, the trace of DNS
collaborator calls, the trace of HTTP requests, and the logger trace (the
code logs each method's name on entry). -/
structure ClientState where
  nonceCount : Nat
  httpCount : Nat
  kid : Option String
  dnsOps : List DnsOp
  requests : List SentReq
  log : List String
deriving DecidableEq

/-- The state of a freshly constructed client. -/
def initState : ClientState := ⟨0, 0, none, [], [], []⟩

/-- What one authorization-status poll iteration observes: either the GET /
`.json()` / `['status']` chain raised, or it produced a status string. -/
inductive PollResult where
  | exc : PyErr → PollResult
  | status : String → PollResult
deriving DecidableEq, Repr

/-- An HTTP response as the code reads it: status code, the `Location`
header when present, the parsed JSON body (or the parse error), the raw
`content` bytes, and the text `log_response` would render into error
messages. -/
structure AcmeResponse where
  status_code : Nat
  location : Option String := none
  body : Except PyErr PyJson := .error (.valueError "No JSON object could be decoded")
  content : List UInt8 := []
  logText : String := ""

/-- The external world: the nonce stream served by the `newNonce` endpoint
(indexed by fetch count), the response to the i-th HTTP request of the
workflow, the outcome of the i-th authorization-status poll, and the two
crypto primitives the code calls (`OpenSSL.crypto.sign` with the account
key, and SHA-256). -/
structure Env where
  nonces : Nat → String
  respond : Nat → AcmeResponse
  poll : Nat → PollResult
  sign : String → List UInt8
  sha256 : List UInt8 → List UInt8

/-- A computation over the client state that either returns a value or
raises a Python exception; the state (the traces) survives either way. -/
inductive MRes (α : Type) where
  | ok : α → ClientState → MRes α
  | err : PyErr → ClientState → MRes α
deriving DecidableEq

def M (α : Type) : Type := ClientState → MRes α

instance : Monad M where
  pure a := fun s => .ok a s
  bind m f := fun s =>
    match m s with
    | .ok a s2 => f a s2
    | .err e s2 => .err e s2

def mThrow (e : PyErr) : M α := fun s => .err e s

def liftE : Except PyErr α → M α
  | .ok a => fun s => .ok a s
  | .error e => fun s => .err e s

/-- The `self.logger.info(<method name>)` call at the top of each method. -/
def logStep (name : String) : M Unit :=
  fun s => .ok () { s with log := s.log ++ [name] }

def getKid : M (Option String) := fun s => .ok s.kid s

def setKid (k : String) : M Unit := fun s => .ok () { s with kid := some k }

def recordDns (op : DnsOp) : M Unit :=
  fun s => .ok () { s with dnsOps := s.dnsOps ++ [op] }

/-- A GET to the `newNonce` endpoint reading the `Replay-Nonce` header; the
nonce endpoint is modelled as its own stream, indexed by how many nonces
were fetched so far. -/
def fetchNonce (env : Env) : M String :=
  fun s => .ok (env.nonces s.nonceCount) { s with nonceCount := s.nonceCount + 1 }

/-- An HTTP request to an ACME resource: recorded in the trace, answered by
the environment by request index. -/
def httpRequest (env : Env) (r : SentReq) : M AcmeResponse :=
  fun s => .ok (env.respond s.httpCount)
    { s with httpCount := s.httpCount + 1, requests := s.requests ++ [r] }

/-- The value of the result, when the computation did not raise. -/
def resultVal : MRes α → Option α
  | .ok a _ => some a
  | .err _ _ => none

/-- The exception the computation raised, if any. -/
def resultErr : MRes α → Option PyErr
  | .ok _ _ => none
  | .err e _ => some e

/-- The state (traces included) after the computation, raised or not. -/
def finalState : MRes α → ClientState
  | .ok _ s => s
  | .err _ s => s

/-! ### Python bare-name resolution -/

/-- The module-level global names of `ACMEclient.py`: its imports and the
class itself.  A bare name bound neither in the enclosing function nor here
raises `NameError`. -/
def moduleGlobals : List String :=
  ["time", "copy", "json", "base64", "hashlib", "binascii", "urllib",
   "textwrap", "platform", "requests", "OpenSSL", "cryptography",
   "get_logger", "sewer_version", "ACMEclient"]

/-- First value bound to `x` in an association list. -/
def lookupStr : List (String × String) → String → Option String
  | [], _ => none
  | (k, v) :: rest, x => if k = x then some v else lookupStr rest x

/-- Whether `x` occurs in the list. -/
def memStr : List String → String → Bool
  | [], _ => false
  | k :: rest, x => if k = x then true else memStr rest x

/-- Resolution of a bare name that should denote a str value, against the
str-valued locals the enclosing function has bound (`locals`).  A module
global would resolve to a module object, never a str; none of the names the
code resolves this way is a module global, so that arm only has to avoid
raising `NameError`. -/
def evalName (locals : List (String × String)) (x : String) : Except PyErr String :=
  match lookupStr locals x with
  | some v => .ok v
  | none =>
    if memStr moduleGlobals x then .error (.typeError ("module object " ++ x))
    else .error (.nameError x)

/-! ### The modelled methods of `ACMEclient` -/

/-- `ACMEclient.get_nonce`. -/
def get_nonce (env : Env) : M String := do
  logStep "get_nonce"
  fetchNonce env

/-- The header dict `ACMEclient.get_acme_header(url)` builds, given the
already-fetched nonce and the current `kid`: always `alg`, `nonce`, `url`;
then `jwk` (kty, e, n from the account key's public numbers, the exponent
hex even-length-padded, the modulus hex as is) for the new-account URL, the
revoke-cert URL and the `GET_THUMBPRINT` pseudo-target, else `kid`. -/
def get_acme_header (cfg : ClientConfig) (kid : Option String) (nonce url : String) :
    Except PyErr PyFields :=
  if url = cfg.ACME_NEW_ACCOUNT_URL ∨ url = cfg.ACME_REVOKE_CERT_URL ∨
      url = "GET_THUMBPRINT" then
    match unhexlify (padEven (hexOfNat cfg.account_e)) with
    | .error e => .error e
    | .ok eb =>
      match unhexlify (hexOfNat cfg.account_n) with
      | .error e => .error e
      | .ok nb =>
        .ok (.cons "alg" (.str "RS256") (.cons "nonce" (.str nonce)
          (.cons "url" (.str url) (.cons "jwk" (.obj
            (.cons "kty" (.str "RSA")
              (.cons "e" (.str (calculate_safe_base64 (.bytes eb)))
                (.cons "n" (.str (calculate_safe_base64 (.bytes nb))) .nil)))) .nil))))
  else
    -- `header["kid"] = self.kid`; `self.kid` is `None` before registration,
    -- which json-serializes as `null`
    .ok (.cons "alg" (.str "RS256") (.cons "nonce" (.str nonce)
      (.cons "url" (.str url) (.cons "kid"
        (match kid with | some k => .str k | none => .null) .nil))))

/-- `ACMEclient.get_acme_header` as the stateful method: logs, fetches a
fresh nonce, builds the header dict. -/
def get_acme_headerM (cfg : ClientConfig) (env : Env) (url : String) : M PyFields := do
  logStep "get_acme_header"
  let nonce ← get_nonce env
  let kid ← getKid
  liftE (get_acme_header cfg kid nonce url)

/-- The `payload` argument of `make_signed_acme_request`: either a str (the
two sentinels are the only str payloads the code passes) or a dict. -/
inductive Payload where
  | str : String → Payload
  | obj : PyFields → Payload
deriving DecidableEq

/-- Python `payload in ['GET_CHALLENGE', 'GET_CERTIFICATE']` (a dict is
never in a list of strings). -/
def isSentinel : Payload → Bool
  | .str s => s = "GET_CHALLENGE" ∨ s = "GET_CERTIFICATE"
  | .obj _ => false

/-- The payload as a JSON value for `json.dumps(payload)`. -/
def payloadJson : Payload → PyJson
  | .str s => .str s
  | .obj fs => .obj fs

/-- `ACMEclient.make_signed_acme_request`: sentinel payloads do a plain GET;
anything else serializes the payload, fetches a nonce and builds the
protected header (`get_acme_header`), signs `protected64.payload64` with the
account key, and POSTs the JWS envelope. -/
def make_signed_acme_request (cfg : ClientConfig) (env : Env) (url : String)
    (payload : Payload) : M AcmeResponse := do
  logStep "make_signed_acme_request"
  if isSentinel payload then
    httpRequest env { method := "GET", url := url }
  else do
    let payloadDump ← liftE (jsonDumpsDefault (payloadJson payload))
    let payload64 := calculate_safe_base64 (.str payloadDump)
    let header ← get_acme_headerM cfg env url
    let headerDump ← liftE (jsonDumpsDefault (.obj header))
    let protected64 := calculate_safe_base64 (.str headerDump)
    let signature := env.sign (protected64 ++ "." ++ payload64)
    let signature64 := calculate_safe_base64 (.bytes signature)
    let data ← liftE (jsonDumpsDefault (.obj (.cons "protected" (.str protected64)
      (.cons "payload" (.str payload64) (.cons "signature" (.str signature64) .nil)))))
    httpRequest env { method := "POST", url := url, protectedHeader := some header,
                      body := some data }

/-- `ACMEclient.acme_register`: POST to the new-account URL; 201 or 409
expected, else `ValueError`; the `Location` header becomes `self.kid`. -/
def acme_register (cfg : ClientConfig) (env : Env) : M AcmeResponse := do
  logStep "acme_register"
  let payload : Payload :=
    if cfg.PRIOR_REGISTERED then
      .obj (.cons "onlyReturnExisting" (.bool true) .nil)
    else
      match cfg.registration_recovery_email with
      | some email =>
        .obj (.cons "termsOfServiceAgreed" (.bool true)
          (.cons "contact" (.arr (.cons (.str ("mailto:" ++ email)) .nil)) .nil))
      | none => .obj (.cons "termsOfServiceAgreed" (.bool true) .nil)
  let resp ← make_signed_acme_request cfg env cfg.ACME_NEW_ACCOUNT_URL payload
  if resp.status_code = 201 ∨ resp.status_code = 409 then
    match resp.location with
    | some kid => do
      setKid kid
      pure resp
    | none => mThrow (.keyError "Location")
  else
    mThrow (.valueError ("Error while registering: status_code=" ++
      toString resp.status_code ++ " response=" ++ resp.logText))

/-- The str-valued locals `apply_for_cert_issuance` has bound when its
`return` statement runs (its other locals — the payload and response
objects and the authorizations list — are not str values and are not the
name being resolved). -/
def applyLocals (authorization_url finalize certificate_url : String) :
    List (String × String) :=
  [("authorization_url", authorization_url), ("finalize", finalize),
   ("certificate_url", certificate_url)]

/-- `ACMEclient.apply_for_cert_issuance`: POST the identifiers to the
new-order URL; 201 expected, else `ValueError`; extracts
`authorizations[0]`, `finalize` and `certificate` from the body, then
executes `return authorization_url, finalize_url` — the name
`finalize_url` was never bound, so the return raises `NameError`.  The
result type is the returned tuple as a list, as the caller unpacks it. -/
def apply_for_cert_issuance (cfg : ClientConfig) (env : Env) : M (List String) := do
  logStep "apply_for_cert_issuance"
  let payload : Payload := .obj (.cons "identifiers" (.arr (.cons
    (.obj (.cons "type" (.str "dns") (.cons "value" (.str cfg.domain_name) .nil)))
    .nil)) .nil)
  let resp ← make_signed_acme_request cfg env cfg.ACME_NEW_ORDER_URL payload
  if resp.status_code ≠ 201 then
    mThrow (.valueError ("Error applying for certificate issuance: status_code=" ++
      toString resp.status_code ++ " response=" ++ resp.logText))
  else do
    let j ← liftE resp.body
    let authorizations ← liftE (dictGet j "authorizations")
    let auth0 ← liftE (listIndex authorizations 0)
    let authorization_url ← liftE (asStr auth0)
    let finalizeJson ← liftE (dictGet j "finalize")
    let finalize ← liftE (asStr finalizeJson)
    let certJson ← liftE (dictGet j "certificate")
    let certificate_url ← liftE (asStr certJson)
    let locals := applyLocals authorization_url finalize certificate_url
    let a ← liftE (evalName locals "authorization_url")
    let f ← liftE (evalName locals "finalize_url")
    pure [a, f]

/-- The tuple unpacking `a, b, c = <list>` of the caller: `ValueError`
unless the tuple has exactly three elements. -/
def unpack3 : List String → Except PyErr (String × String × String)
  | [a, b, c] => .ok (a, b, c)
  | l => .error (.valueError ("not enough values to unpack, expected 3, got " ++
      toString l.length))

/-- The `for i in challenges: if i['type'] == 'dns-01': dns_challenge = i`
loop: left to right, each entry's `['type']` may raise `KeyError`, the last
match wins. -/
def findDnsChallengeAux : PyJsonList → Except PyErr (Option PyJson)
  | .nil => .ok none
  | .cons i rest =>
    match dictGet i "type" with
    | .error e => .error e
    | .ok t =>
      match findDnsChallengeAux rest with
      | .error e => .error e
      | .ok found =>
        .ok (match found with
          | some d => some d
          | none => if t = .str "dns-01" then some i else none)

/-- The challenge selection of `get_challenge`: when no entry has type
`dns-01` the loop never binds `dns_challenge`, and the following
`dns_challenge['token']` raises `NameError`. -/
def findDnsChallenge (j : PyJson) : Except PyErr PyJson :=
  match j with
  | .arr l =>
    match findDnsChallengeAux l with
    | .error e => .error e
    | .ok (some d) => .ok d
    | .ok none => .error (.nameError "dns_challenge")
  | _ => .error (.typeError "challenges is not a list")

/-- `ACMEclient.get_challenge`: GET the authorization URL (sentinel
`GET_CHALLENGE`), expect 200, pick the dns-01 challenge, return its token
and URL. -/
def get_challenge (cfg : ClientConfig) (env : Env) (url : String) :
    M (String × String) := do
  logStep "get_challenge"
  let resp ← make_signed_acme_request cfg env url (.str "GET_CHALLENGE")
  if resp.status_code ≠ 200 then
    mThrow (.valueError ("Error requesting for challenges: status_code=" ++
      toString resp.status_code ++ " response=" ++ resp.logText))
  else do
    let j ← liftE resp.body
    let challenges ← liftE (dictGet j "challenges")
    let dns ← liftE (findDnsChallenge challenges)
    let tokenJson ← liftE (dictGet dns "token")
    let dns_token ← liftE (asStr tokenJson)
    let urlJson ← liftE (dictGet dns "url")
    let dns_challenge_url ← liftE (asStr urlJson)
    pure (dns_token, dns_challenge_url)

/-- `ACMEclient.get_keyauthorization`: the canonical JSON of the `jwk` field
of `get_acme_header("GET_THUMBPRINT")` (keys sorted, compact separators) is
SHA-256-hashed and base64url-encoded into the thumbprint;
`key_authorization = token + "." + thumbprint`; the DNS record value is
base64url(SHA-256(key_authorization)). -/
def get_keyauthorization (cfg : ClientConfig) (env : Env) (dns_token : String) :
    M (String × String) := do
  logStep "get_keyauthorization"
  let header ← get_acme_headerM cfg env "GET_THUMBPRINT"
  let jwk ← liftE (dictGet (.obj header) "jwk")
  let acme_header_jwk_json ← liftE (jsonDumpsCanonical jwk)
  let acme_thumbprint :=
    calculate_safe_base64 (.bytes (env.sha256 (utf8Bytes acme_header_jwk_json)))
  let acme_keyauthorization := dns_token ++ "." ++ acme_thumbprint
  let base64_of_acme_keyauthorization :=
    calculate_safe_base64 (.bytes (env.sha256 (utf8Bytes acme_keyauthorization)))
  pure (acme_keyauthorization, base64_of_acme_keyauthorization)

/-- `dns_class.create_dns_record(domain, value)`: the external collaborator,
recorded in the DNS trace. -/
def create_dns_record (domain value : String) : M Unit :=
  recordDns (.create domain value)

/-- `ACMEclient.send_csr`: POST `{"csr": self.csr}` to the finalize URL.
`self.csr` is the DER bytes of the CSR, which `json.dumps` cannot
serialize, so building the payload raises `TypeError` before anything is
sent; were that passed, a non-200 status would raise `ValueError`. -/
def send_csr (cfg : ClientConfig) (env : Env) (finalize_url : String) :
    M AcmeResponse := do
  logStep "send_csr"
  let payload : Payload := .obj (.cons "csr" (.bytes cfg.csr) .nil)
  let resp ← make_signed_acme_request cfg env finalize_url payload
  if resp.status_code ≠ 200 then
    mThrow (.valueError ("Error sending csr: status_code=" ++
      toString resp.status_code ++ " response=" ++ resp.logText))
  else pure resp

/-- `ACMEclient.respond_to_challenge`: POST the key authorization to the
challenge URL, accept any response, then execute
`return respond_to_challenge` — that bare name is neither a local nor a
module global (it is an attribute of the class), so the return raises
`NameError`.  The caller ignores the return value, so the type is `Unit`. -/
def respond_to_challenge (cfg : ClientConfig) (env : Env)
    (acme_keyauthorization dns_challenge_url : String) : M Unit := do
  logStep "respond_to_challenge"
  let payload : Payload := .obj (.cons "keyAuthorization" (.str acme_keyauthorization) .nil)
  let _ ← make_signed_acme_request cfg env dns_challenge_url payload
  let _ ← liftE (evalName [("acme_keyauthorization", acme_keyauthorization),
    ("dns_challenge_url", dns_challenge_url)] "respond_to_challenge")
  pure ()

/-! ### The authorization polling loop -/

/-- What `check_authorization_status` did: the final value of its
`number_of_checks` counter, the `delete_dns_record` calls it performed,
and whether it ended in a normal `break` or in a propagated exception. -/
structure PollOutcome where
  checks : Nat
  dnsOps : List DnsOp
  result : Except PyErr Unit
deriving DecidableEq

/-- The str-valued locals of `check_authorization_status` (its parameters;
the headers/response/status locals are not str values being resolved, and
`number_of_checks` is an int). -/
def checkAuthLocals (authorization_url base64_of_acme_keyauthorization : String) :
    List (String × String) :=
  [("authorization_url", authorization_url),
   ("base64_of_acme_keyauthorization", base64_of_acme_keyauthorization)]

/-- The `delete_dns_record(domain_name, base64_of_acme_keyauthorization)`
call shared by the `except` clause and the `valid` branch: evaluating the
bare name `domain_name` (never bound; the attribute is `self.domain_name`)
raises `NameError` before the collaborator is invoked. -/
def deleteDnsAttempt (authorization_url b64ka : String) (checks : Nat) : PollOutcome :=
  match evalName (checkAuthLocals authorization_url b64ka) "domain_name" with
  | .error e => ⟨checks, [], .error e⟩
  | .ok dom => ⟨checks, [.delete dom b64ka], .ok ()⟩

/-- One pass of the `while True` loop of `check_authorization_status`,
`fuel`-bounded: the i-th iteration GETs the authorization URL (`poll gets`);
an exception there goes to the `except` clause (DNS cleanup attempt, then
`break`); a parsed status bumps `number_of_checks`, raises `StopIteration`
into the same `except` clause once the count exceeds 5, sleeps and retries
on `pending` and on any other status, and attempts DNS cleanup and breaks
on `valid`.  Any `fuel ≥ 6 - checks` (with `checks ≤ 5`) gives the true
outcome, see `checkAuthLoop_fuel`. -/
def checkAuthLoop (poll : Nat → PollResult) (authorization_url b64ka : String) :
    Nat → Nat → Nat → PollOutcome
  | 0, _, checks => ⟨checks, [], .error (.requestError "loop fuel exhausted")⟩
  | fuel + 1, gets, checks =>
    match poll gets with
    | .exc _ => deleteDnsAttempt authorization_url b64ka checks
    | .status st =>
      let checks2 := checks + 1
      if 5 < checks2 then deleteDnsAttempt authorization_url b64ka checks2
      else if st = "pending" then
        checkAuthLoop poll authorization_url b64ka fuel (gets + 1) checks2
      else if st = "valid" then deleteDnsAttempt authorization_url b64ka checks2
      else checkAuthLoop poll authorization_url b64ka fuel (gets + 1) checks2

/-- `ACMEclient.check_authorization_status`: sleep, then the bounded loop
(`maximum_number_of_checks_allowed = 5`; six iterations are the most the
loop can run, as the count check happens after the sixth GET). -/
def check_authorization_status (poll : Nat → PollResult)
    (authorization_url b64ka : String) : PollOutcome :=
  checkAuthLoop poll authorization_url b64ka 6 0 0

/-- `check_authorization_status` as the stateful method: logs, runs the
loop, merges its DNS calls into the trace, propagates its exception.  The
caller ignores the returned response, so the type is `Unit`. -/
def check_authorization_statusM (env : Env) (authorization_url b64ka : String) :
    M Unit := fun s =>
  let o := check_authorization_status env.poll authorization_url b64ka
  let s2 := { s with log := s.log ++ ["check_authorization_status"],
                     dnsOps := s.dnsOps ++ o.dnsOps }
  match o.result with
  | .ok _ => .ok () s2
  | .error e => .err e s2

/-! ### Certificate download and chain -/

/-- Python `x.encode('utf-8')`: defined on str, an `AttributeError` on
bytes (`requests` response `content` is bytes). -/
def pyEncodeUtf8 : PyVal → Except PyErr (List UInt8)
  | .str s => .ok (utf8Bytes s)
  | .bytes _ => .error (.attributeError "bytes object has no attribute encode")

/-- Python `str + bytes`: a `TypeError`. -/
def pyAddStrBytes (_ : String) (_ : List UInt8) : Except PyErr String :=
  .error (.typeError "can only concatenate str, not bytes, to str")

/-- Chunks of 64 characters, with the input length as recursion fuel. -/
def chunkCharsAux : Nat → List Char → List (List Char)
  | 0, _ => []
  | _, [] => []
  | fuel + 1, l => l.take 64 :: chunkCharsAux fuel (l.drop 64)

/-- Python `textwrap.wrap(s, 64)` on base64 text: no whitespace in the
input, so it breaks the one long word into 64-column chunks. -/
def wrap64 (s : String) : List String :=
  (chunkCharsAux s.data.length s.data).map fun l => ⟨l⟩

/-- `ACMEclient.get_certificate`: GET the certificate URL (sentinel
`GET_CERTIFICATE`), expect 200, then
`base64.b64encode(response.content.encode('utf-8'))` — `content` is bytes,
so `.encode` raises `AttributeError`.  The dead continuation wraps the
base64 into 64-column PEM lines and appends `self.certificate_chain`,
itself a str + bytes `TypeError`. -/
def get_certificate (cfg : ClientConfig) (env : Env) (certificate_url : String) :
    M String := do
  logStep "get_certificate"
  let resp ← make_signed_acme_request cfg env certificate_url (.str "GET_CERTIFICATE")
  if resp.status_code ≠ 200 then
    mThrow (.valueError ("Error fetching signed certificate: status_code=" ++
      toString resp.status_code ++ " response=" ++ resp.logText))
  else do
    let encoded ← liftE (pyEncodeUtf8 (.bytes resp.content))
    let base64encoded_cert := b64encode encoded
    let sixty_four_width_cert := wrap64 base64encoded_cert
    let certificate := String.intercalate "\n" sixty_four_width_cert
    let pem_certificate :=
      "-----BEGIN CERTIFICATE-----\n" ++ certificate ++ "\n-----END CERTIFICATE-----\n"
    let pem_certificate_and_chain ←
      liftE (pyAddStrBytes pem_certificate cfg.certificate_chain)
    pure pem_certificate_and_chain

def beginMarker : List UInt8 := utf8Bytes "-----BEGIN CERTIFICATE-----"

def endMarker : List UInt8 := utf8Bytes "-----END CERTIFICATE-----"

/-- Whether `l` starts with `pat`. -/
def startsWithBytes : List UInt8 → List UInt8 → Bool
  | [], _ => true
  | _ :: _, [] => false
  | p :: ps, x :: xs => p = x && startsWithBytes ps xs

/-- Python `pat in l` on bytes: contiguous substring containment. -/
def containsBytes (pat : List UInt8) : List UInt8 → Bool
  | [] => pat.isEmpty
  | x :: xs => startsWithBytes pat (x :: xs) || containsBytes pat xs

/-- `ACMEclient.get_certificate_chain` (constructor time, so a pure function
of the one response): a status outside 200/201 raises; then the code means
to require both PEM markers, but the condition
`b'-----BEGIN CERTIFICATE-----' and b'-----END CERTIFICATE-----' not in content`
parses as `A and (B not in content)` with `A` a truthy non-empty bytes
literal, so only the END marker is actually checked. -/
def get_certificate_chain (status_code : Nat) (content : List UInt8)
    (logText : String) : Except PyErr (List UInt8) :=
  if ¬ (status_code = 200 ∨ status_code = 201) then
    .error (.valueError ("Error while getting Acme certificate chain: status_code=" ++
      toString status_code ++ " response=" ++ logText))
  else if !beginMarker.isEmpty && !(containsBytes endMarker content) then
    .error (.valueError ("Error while getting Acme certificate chain: status_code=" ++
      toString status_code ++ " response=" ++ logText))
  else .ok content

/-! ### The top-level workflow -/

/-- `ACMEclient.just_get_me_a_certificate`: the step sequence exactly as the
source writes it (note `send_csr` runs before `respond_to_challenge` and
`check_authorization_status`). -/
def just_get_me_a_certificate (cfg : ClientConfig) (env : Env) : M String := do
  logStep "just_get_me_a_certificate"
  let _ ← acme_register cfg env
  let r ← apply_for_cert_issuance cfg env
  let (authorization_url, finalize_url, certificate_url) ← liftE (unpack3 r)
  let (dns_token, dns_challenge_url) ← get_challenge cfg env authorization_url
  let (acme_keyauthorization, base64_of_acme_keyauthorization) ←
    get_keyauthorization cfg env dns_token
  create_dns_record cfg.domain_name base64_of_acme_keyauthorization
  let _ ← send_csr cfg env finalize_url
  respond_to_challenge cfg env acme_keyauthorization dns_challenge_url
  check_authorization_statusM env authorization_url base64_of_acme_keyauthorization
  get_certificate cfg env certificate_url

/-- `ACMEclient.cert`. -/
def cert (cfg : ClientConfig) (env : Env) : M String :=
  just_get_me_a_certificate cfg env

/-- `ACMEclient.renew`. -/
def renew (cfg : ClientConfig) (env : Env) : M String :=
  just_get_me_a_certificate cfg env

/-- A full run of the workflow from the freshly constructed client state. -/
def runClient (cfg : ClientConfig) (env : Env) : MRes String :=
  just_get_me_a_certificate cfg env initState

/-! ### Reasoning infrastructure: unfolding the monad, effect frames -/

theorem bind_apply (m : M α) (f : α → M β) (s : ClientState) :
    (m >>= f) s = match m s with
      | .ok a s2 => f a s2
      | .err e s2 => .err e s2 := rfl

theorem pure_apply (a : α) (s : ClientState) : (pure a : M α) s = .ok a s := rfl

/-- The computation raises, whatever state it starts from. -/
def AlwaysErr (m : M α) : Prop := ∀ s, ∃ e s2, m s = .err e s2

/-- The computation never touches the DNS trace. -/
def DnsFrame (m : M α) : Prop := ∀ s, (finalState (m s)).dnsOps = s.dnsOps

/-- The computation only appends log entries, none of them `bad`. -/
def LogFrame (bad : String) (m : M α) : Prop :=
  ∀ s, ∃ l, (finalState (m s)).log = s.log ++ l ∧ bad ∉ l

theorem dnsFrame_bind {m : M α} {f : α → M β} (hm : DnsFrame m)
    (hf : ∀ a, DnsFrame (f a)) : DnsFrame (m >>= f) := by
  intro s
  rw [bind_apply]
  cases hms : m s with
  | ok a s2 =>
    have h1 := hm s
    rw [hms] at h1
    have h2 := hf a s2
    simp only [finalState] at h1
    rw [← h1]
    exact h2
  | err e s2 =>
    have h1 := hm s
    rw [hms] at h1
    exact h1

theorem dnsFrame_pure (a : α) : DnsFrame (pure a : M α) := fun _ => rfl

theorem dnsFrame_mThrow (e : PyErr) : DnsFrame (mThrow e : M α) := fun _ => rfl

theorem dnsFrame_liftE (x : Except PyErr α) : DnsFrame (liftE x) := by
  intro s
  cases x <;> rfl

theorem dnsFrame_logStep (n : String) : DnsFrame (logStep n) := fun _ => rfl

theorem dnsFrame_getKid : DnsFrame getKid := fun _ => rfl

theorem dnsFrame_setKid (k : String) : DnsFrame (setKid k) := fun _ => rfl

theorem dnsFrame_fetchNonce (env : Env) : DnsFrame (fetchNonce env) := fun _ => rfl

theorem dnsFrame_httpRequest (env : Env) (r : SentReq) :
    DnsFrame (httpRequest env r) := fun _ => rfl

theorem logFrame_bind {bad : String} {m : M α} {f : α → M β} (hm : LogFrame bad m)
    (hf : ∀ a, LogFrame bad (f a)) : LogFrame bad (m >>= f) := by
  intro s
  rw [bind_apply]
  cases hms : m s with
  | ok a s2 =>
    obtain ⟨l1, hl1, hb1⟩ := hm s
    rw [hms] at hl1
    simp only [finalState] at hl1
    obtain ⟨l2, hl2, hb2⟩ := hf a s2
    refine ⟨l1 ++ l2, ?_, ?_⟩
    · rw [hl2, hl1, List.append_assoc]
    · intro hmem
      rcases List.mem_append.mp hmem with h | h
      · exact hb1 h
      · exact hb2 h
  | err e s2 =>
    obtain ⟨l1, hl1, hb1⟩ := hm s
    rw [hms] at hl1
    exact ⟨l1, hl1, hb1⟩

theorem logFrame_pure (bad : String) (a : α) : LogFrame bad (pure a : M α) :=
  fun s => ⟨[], by simp [pure_apply, finalState], by simp⟩

theorem logFrame_mThrow (bad : String) (e : PyErr) : LogFrame bad (mThrow e : M α) :=
  fun s => ⟨[], by simp [mThrow, finalState], by simp⟩

theorem logFrame_liftE (bad : String) (x : Except PyErr α) : LogFrame bad (liftE x) := by
  intro s
  refine ⟨[], ?_, by simp⟩
  cases x <;> simp [liftE, finalState]

theorem logFrame_logStep {bad n : String} (h : n ≠ bad) : LogFrame bad (logStep n) := by
  intro s
  exact ⟨[n], rfl, by simpa using fun he => h he.symm⟩

theorem logFrame_getKid (bad : String) : LogFrame bad getKid :=
  fun s => ⟨[], by simp [getKid, finalState], by simp⟩

theorem logFrame_setKid (bad : String) (k : String) : LogFrame bad (setKid k) :=
  fun s => ⟨[], by simp [setKid, finalState], by simp⟩

theorem logFrame_fetchNonce (bad : String) (env : Env) : LogFrame bad (fetchNonce env) :=
  fun s => ⟨[], by simp [fetchNonce, finalState], by simp⟩

theorem logFrame_httpRequest (bad : String) (env : Env) (r : SentReq) :
    LogFrame bad (httpRequest env r) :=
  fun s => ⟨[], by simp [httpRequest, finalState], by simp⟩

theorem dnsFrame_get_nonce (env : Env) : DnsFrame (get_nonce env) := by
  unfold get_nonce
  exact dnsFrame_bind (dnsFrame_logStep _) fun _ => dnsFrame_fetchNonce env

theorem dnsFrame_get_acme_headerM (cfg : ClientConfig) (env : Env) (url : String) :
    DnsFrame (get_acme_headerM cfg env url) := by
  unfold get_acme_headerM
  exact dnsFrame_bind (dnsFrame_logStep _) fun _ =>
    dnsFrame_bind (dnsFrame_get_nonce env) fun _ =>
      dnsFrame_bind dnsFrame_getKid fun _ => dnsFrame_liftE _

theorem dnsFrame_make_signed (cfg : ClientConfig) (env : Env) (url : String)
    (p : Payload) : DnsFrame (make_signed_acme_request cfg env url p) := by
  unfold make_signed_acme_request
  refine dnsFrame_bind (dnsFrame_logStep _) fun _ => ?_
  split
  · exact dnsFrame_httpRequest env _
  · refine dnsFrame_bind (dnsFrame_liftE _) fun _ => ?_
    refine dnsFrame_bind (dnsFrame_get_acme_headerM cfg env url) fun _ => ?_
    refine dnsFrame_bind (dnsFrame_liftE _) fun _ => ?_
    refine dnsFrame_bind (dnsFrame_liftE _) fun _ => ?_
    exact dnsFrame_httpRequest env _

theorem dnsFrame_acme_register (cfg : ClientConfig) (env : Env) :
    DnsFrame (acme_register cfg env) := by
  unfold acme_register
  refine dnsFrame_bind (dnsFrame_logStep _) fun _ => ?_
  refine dnsFrame_bind (dnsFrame_make_signed cfg env _ _) fun resp => ?_
  split
  · cases resp.location with
    | some k =>
      exact dnsFrame_bind (dnsFrame_setKid k) fun _ => dnsFrame_pure resp
    | none => exact dnsFrame_mThrow _
  · exact dnsFrame_mThrow _

theorem dnsFrame_apply (cfg : ClientConfig) (env : Env) :
    DnsFrame (apply_for_cert_issuance cfg env) := by
  unfold apply_for_cert_issuance
  refine dnsFrame_bind (dnsFrame_logStep _) fun _ => ?_
  refine dnsFrame_bind (dnsFrame_make_signed cfg env _ _) fun resp => ?_
  split
  · exact dnsFrame_mThrow _
  · refine dnsFrame_bind (dnsFrame_liftE _) fun _ => ?_
    refine dnsFrame_bind (dnsFrame_liftE _) fun _ => ?_
    refine dnsFrame_bind (dnsFrame_liftE _) fun _ => ?_
    refine dnsFrame_bind (dnsFrame_liftE _) fun _ => ?_
    refine dnsFrame_bind (dnsFrame_liftE _) fun _ => ?_
    refine dnsFrame_bind (dnsFrame_liftE _) fun _ => ?_
    refine dnsFrame_bind (dnsFrame_liftE _) fun _ => ?_
    refine dnsFrame_bind (dnsFrame_liftE _) fun _ => ?_
    refine dnsFrame_bind (dnsFrame_liftE _) fun _ => ?_
    exact dnsFrame_bind (dnsFrame_liftE _) fun _ => dnsFrame_pure _

theorem logFrame_get_nonce (bad : String) (env : Env) (h : "get_nonce" ≠ bad) :
    LogFrame bad (get_nonce env) := by
  unfold get_nonce
  exact logFrame_bind (logFrame_logStep h) fun _ => logFrame_fetchNonce bad env

theorem logFrame_get_acme_headerM (bad : String) (cfg : ClientConfig) (env : Env)
    (url : String) (h1 : "get_acme_header" ≠ bad) (h2 : "get_nonce" ≠ bad) :
    LogFrame bad (get_acme_headerM cfg env url) := by
  unfold get_acme_headerM
  exact logFrame_bind (logFrame_logStep h1) fun _ =>
    logFrame_bind (logFrame_get_nonce bad env h2) fun _ =>
      logFrame_bind (logFrame_getKid bad) fun _ => logFrame_liftE bad _

theorem logFrame_make_signed (bad : String) (cfg : ClientConfig) (env : Env)
    (url : String) (p : Payload) (h1 : "make_signed_acme_request" ≠ bad)
    (h2 : "get_acme_header" ≠ bad) (h3 : "get_nonce" ≠ bad) :
    LogFrame bad (make_signed_acme_request cfg env url p) := by
  unfold make_signed_acme_request
  refine logFrame_bind (logFrame_logStep h1) fun _ => ?_
  split
  · exact logFrame_httpRequest bad env _
  · refine logFrame_bind (logFrame_liftE bad _) fun _ => ?_
    refine logFrame_bind (logFrame_get_acme_headerM bad cfg env url h2 h3) fun _ => ?_
    refine logFrame_bind (logFrame_liftE bad _) fun _ => ?_
    refine logFrame_bind (logFrame_liftE bad _) fun _ => ?_
    exact logFrame_httpRequest bad env _

theorem logFrame_acme_register (bad : String) (cfg : ClientConfig) (env : Env)
    (h0 : "acme_register" ≠ bad) (h1 : "make_signed_acme_request" ≠ bad)
    (h2 : "get_acme_header" ≠ bad) (h3 : "get_nonce" ≠ bad) :
    LogFrame bad (acme_register cfg env) := by
  unfold acme_register
  refine logFrame_bind (logFrame_logStep h0) fun _ => ?_
  refine logFrame_bind (logFrame_make_signed bad cfg env _ _ h1 h2 h3) fun resp => ?_
  split
  · cases resp.location with
    | some k =>
      exact logFrame_bind (logFrame_setKid bad k) fun _ => logFrame_pure bad resp
    | none => exact logFrame_mThrow bad _
  · exact logFrame_mThrow bad _

theorem logFrame_apply (bad : String) (cfg : ClientConfig) (env : Env)
    (h0 : "apply_for_cert_issuance" ≠ bad) (h1 : "make_signed_acme_request" ≠ bad)
    (h2 : "get_acme_header" ≠ bad) (h3 : "get_nonce" ≠ bad) :
    LogFrame bad (apply_for_cert_issuance cfg env) := by
  unfold apply_for_cert_issuance
  refine logFrame_bind (logFrame_logStep h0) fun _ => ?_
  refine logFrame_bind (logFrame_make_signed bad cfg env _ _ h1 h2 h3) fun resp => ?_
  split
  · exact logFrame_mThrow bad _
  · refine logFrame_bind (logFrame_liftE bad _) fun _ => ?_
    refine logFrame_bind (logFrame_liftE bad _) fun _ => ?_
    refine logFrame_bind (logFrame_liftE bad _) fun _ => ?_
    refine logFrame_bind (logFrame_liftE bad _) fun _ => ?_
    refine logFrame_bind (logFrame_liftE bad _) fun _ => ?_
    refine logFrame_bind (logFrame_liftE bad _) fun _ => ?_
    refine logFrame_bind (logFrame_liftE bad _) fun _ => ?_
    refine logFrame_bind (logFrame_liftE bad _) fun _ => ?_
    refine logFrame_bind (logFrame_liftE bad _) fun _ => ?_
    exact logFrame_bind (logFrame_liftE bad _) fun _ => logFrame_pure bad _

/-- The unbound name at the `return` of `apply_for_cert_issuance`. -/
theorem evalName_finalize_url (a f c : String) :
    evalName (applyLocals a f c) "finalize_url" = .error (.nameError "finalize_url") := by
  rfl

theorem alwaysErr_bind {m : M α} {f : α → M β} (hf : ∀ a, AlwaysErr (f a)) :
    AlwaysErr (m >>= f) := by
  intro s
  rw [bind_apply]
  cases hms : m s with
  | ok a s2 => exact hf a s2
  | err e s2 => exact ⟨e, s2, rfl⟩

theorem alwaysErr_bind_left {m : M α} (hm : AlwaysErr m) (f : α → M β) :
    AlwaysErr (m >>= f) := by
  intro s
  rw [bind_apply]
  obtain ⟨e, s2, h⟩ := hm s
  rw [h]
  exact ⟨e, s2, rfl⟩

theorem alwaysErr_mThrow (e : PyErr) : AlwaysErr (mThrow e : M α) :=
  fun s => ⟨e, s, rfl⟩

theorem alwaysErr_liftE_error {x : Except PyErr α} {e : PyErr} (h : x = .error e) :
    AlwaysErr (liftE x) := by
  intro s
  subst h
  exact ⟨e, s, rfl⟩

/-! ### Characterizing `get_acme_header` -/

/-- The public JWK as the spec words it: kty RSA, `e` and `n` the base64url
of the even-length-padded big-endian bytes of the RSA public exponent and
modulus. -/
def jwkSpecJson (e n : Nat) : PyJson :=
  .obj (.cons "kty" (.str "RSA")
    (.cons "e" (.str (calculate_safe_base64 (.bytes (beBytes e))))
      (.cons "n" (.str (calculate_safe_base64 (.bytes (beBytes n)))) .nil)))

/-- The header dict of the jwk branch. -/
def jwkHeaderFields (e n : Nat) (nonce url : String) : PyFields :=
  .cons "alg" (.str "RS256") (.cons "nonce" (.str nonce)
    (.cons "url" (.str url) (.cons "jwk" (jwkSpecJson e n) .nil)))

/-- The header dict of the kid branch. -/
def kidHeaderFields (kid : Option String) (nonce url : String) : PyFields :=
  .cons "alg" (.str "RS256") (.cons "nonce" (.str nonce)
    (.cons "url" (.str url)
      (.cons "kid" (match kid with | some k => .str k | none => .null) .nil)))

/-- On the jwk branch (new-account, revoke-cert, `GET_THUMBPRINT`) with an
even-length modulus hex, the header is `alg`, `nonce`, `url`, `jwk` with
both numbers encoded as the big-endian bytes the spec describes. -/
theorem get_acme_header_jwk (cfg : ClientConfig) (kid : Option String)
    (nonce url : String)
    (hin : url = cfg.ACME_NEW_ACCOUNT_URL ∨ url = cfg.ACME_REVOKE_CERT_URL ∨
      url = "GET_THUMBPRINT")
    (hn : (hexOfNat cfg.account_n).length % 2 = 0) :
    get_acme_header cfg kid nonce url =
      .ok (jwkHeaderFields cfg.account_e cfg.account_n nonce url) := by
  unfold get_acme_header
  rw [if_pos hin, unhexlify_padEven_hexOfNat, unhexlify_hexOfNat_even _ hn]
  rfl

/-- On every other URL the header is `alg`, `nonce`, `url`, `kid` (the
current `self.kid`, `null` when still unset). -/
theorem get_acme_header_kid (cfg : ClientConfig) (kid : Option String)
    (nonce url : String)
    (hout : ¬ (url = cfg.ACME_NEW_ACCOUNT_URL ∨ url = cfg.ACME_REVOKE_CERT_URL ∨
      url = "GET_THUMBPRINT")) :
    get_acme_header cfg kid nonce url =
      .ok (kidHeaderFields kid nonce url) := by
  unfold get_acme_header
  rw [if_neg hout]
  rfl

/-- The state after `get_acme_headerM`: one nonce fetched, two log lines. -/
def headerStepState (s : ClientState) : ClientState :=
  { s with nonceCount := s.nonceCount + 1,
           log := s.log ++ ["get_acme_header", "get_nonce"] }

/-- Running `get_acme_headerM` is building the header dict over a freshly
fetched nonce. -/
theorem get_acme_headerM_run (cfg : ClientConfig) (env : Env) (url : String)
    (s : ClientState) :
    get_acme_headerM cfg env url s =
      match get_acme_header cfg s.kid (env.nonces s.nonceCount) url with
      | .ok h => .ok h (headerStepState s)
      | .error e => .err e (headerStepState s) := by
  cases h : get_acme_header cfg s.kid (env.nonces s.nonceCount) url <;>
    simp [get_acme_headerM, get_nonce, logStep, fetchNonce, getKid, liftE,
      bind_apply, h, headerStepState, List.append_assoc]

/-- The state after one signed POST: a nonce fetched, a request sent, three
log lines. -/
def signedStepState (s : ClientState) (url : String) (hdr : PyFields) (data : String) :
    ClientState :=
  { s with nonceCount := s.nonceCount + 1,
           httpCount := s.httpCount + 1,
           requests := s.requests ++ [⟨"POST", url, some hdr, some data⟩],
           log := s.log ++ ["make_signed_acme_request", "get_acme_header", "get_nonce"] }

/-- A non-sentinel request whose payload serializes and whose header builds
POSTs the envelope and returns the environment's next response; the header
it signs and sends is the one built over the freshly fetched nonce. -/
theorem make_signed_signed (cfg : ClientConfig) (env : Env) (url : String)
    (p : Payload) (s : ClientState) (pd hd : String) (hdr : PyFields)
    (hs : isSentinel p = false)
    (hp : jsonDumpsDefault (payloadJson p) = .ok pd)
    (hh : get_acme_header cfg s.kid (env.nonces s.nonceCount) url = .ok hdr)
    (hhd : jsonDumpsDefault (.obj hdr) = .ok hd) :
    ∃ data, make_signed_acme_request cfg env url p s =
      .ok (env.respond s.httpCount) (signedStepState s url hdr data) := by
  obtain ⟨data, hdata⟩ :
      ∃ d, jsonDumpsDefault (.obj (.cons "protected"
        (.str (calculate_safe_base64 (.str hd)))
        (.cons "payload" (.str (calculate_safe_base64 (.str pd)))
          (.cons "signature" (.str (calculate_safe_base64 (.bytes
            (env.sign (calculate_safe_base64 (.str hd) ++ "." ++
              calculate_safe_base64 (.str pd))))))
            .nil)))) = .ok d := ⟨_, rfl⟩
  refine ⟨data, ?_⟩
  unfold make_signed_acme_request
  simp only [bind_apply, logStep, hs, Bool.false_eq_true, if_false, liftE, hp,
    get_acme_headerM_run, headerStepState, hh, hhd, hdata, httpRequest]
  simp [signedStepState, List.append_assoc]

/-- With an even-length modulus hex, a 201/409 response and a `Location`
header, `acme_register` returns the response and stores the `kid`. -/
theorem acme_register_ok (cfg : ClientConfig) (env : Env) (s : ClientState)
    (k : String) (hn : (hexOfNat cfg.account_n).length % 2 = 0)
    (hst : (env.respond s.httpCount).status_code = 201 ∨
      (env.respond s.httpCount).status_code = 409)
    (hloc : (env.respond s.httpCount).location = some k) :
    ∃ data, acme_register cfg env s =
      .ok (env.respond s.httpCount)
        { signedStepState { s with log := s.log ++ ["acme_register"] }
            cfg.ACME_NEW_ACCOUNT_URL
            (jwkHeaderFields cfg.account_e cfg.account_n (env.nonces s.nonceCount)
              cfg.ACME_NEW_ACCOUNT_URL) data with kid := some k } := by
  have hh := get_acme_header_jwk cfg s.kid (env.nonces s.nonceCount)
    cfg.ACME_NEW_ACCOUNT_URL (Or.inl rfl) hn
  unfold acme_register
  set s1 : ClientState := { s with log := s.log ++ ["acme_register"] } with hs1
  have hs1kid : s1.kid = s.kid := rfl
  have hs1n : s1.nonceCount = s.nonceCount := rfl
  have hs1h : s1.httpCount = s.httpCount := rfl
  by_cases hpr : cfg.PRIOR_REGISTERED
  · obtain ⟨data, hms⟩ := make_signed_signed cfg env cfg.ACME_NEW_ACCOUNT_URL
      (.obj (.cons "onlyReturnExisting" (.bool true) .nil)) s1 _ _ _ rfl rfl
      hh rfl
    refine ⟨data, ?_⟩
    simp only [bind_apply, logStep, hpr, if_true, ← hs1, hms, hs1h, hst, if_pos,
      hloc, setKid, pure_apply]
  · have hpr2 : cfg.PRIOR_REGISTERED = false := by
      cases hb : cfg.PRIOR_REGISTERED
      · rfl
      · exact absurd hb hpr
    cases hmail : cfg.registration_recovery_email with
    | some email =>
      obtain ⟨data, hms⟩ := make_signed_signed cfg env cfg.ACME_NEW_ACCOUNT_URL
        (.obj (.cons "termsOfServiceAgreed" (.bool true)
          (.cons "contact" (.arr (.cons (.str ("mailto:" ++ email)) .nil)) .nil)))
        s1 _ _ _ rfl rfl hh rfl
      refine ⟨data, ?_⟩
      simp only [bind_apply, logStep, hpr2, Bool.false_eq_true, if_false, hmail,
        ← hs1, hms, hs1h, hst, if_pos, hloc, setKid, pure_apply]
    | none =>
      obtain ⟨data, hms⟩ := make_signed_signed cfg env cfg.ACME_NEW_ACCOUNT_URL
        (.obj (.cons "termsOfServiceAgreed" (.bool true) .nil))
        s1 _ _ _ rfl rfl hh rfl
      refine ⟨data, ?_⟩
      simp only [bind_apply, logStep, hpr2, Bool.false_eq_true, if_false, hmail,
        ← hs1, hms, hs1h, hst, if_pos, hloc, setKid, pure_apply]

/-- A well-formed order body as `apply_for_cert_issuance` reads it:
`authorizations[0]`, `finalize` and `certificate`, all str values. -/
def parseOrder (resp : AcmeResponse) : Option (String × String × String) :=
  match resp.body with
  | .error _ => none
  | .ok j =>
    match dictGet j "authorizations" with
    | .error _ => none
    | .ok auths =>
      match listIndex auths 0 with
      | .error _ => none
      | .ok a0 =>
        match asStr a0 with
        | .error _ => none
        | .ok a =>
          match dictGet j "finalize" with
          | .error _ => none
          | .ok fj =>
            match asStr fj with
            | .error _ => none
            | .ok f =>
              match dictGet j "certificate" with
              | .error _ => none
              | .ok cj =>
                match asStr cj with
                | .error _ => none
                | .ok c => some (a, f, c)

theorem parseOrder_some {resp : AcmeResponse} {a f c : String}
    (h : parseOrder resp = some (a, f, c)) :
    ∃ j auths a0 fj cj, resp.body = .ok j ∧
      dictGet j "authorizations" = .ok auths ∧ listIndex auths 0 = .ok a0 ∧
      asStr a0 = .ok a ∧ dictGet j "finalize" = .ok fj ∧ asStr fj = .ok f ∧
      dictGet j "certificate" = .ok cj ∧ asStr cj = .ok c := by
  unfold parseOrder at h
  repeat
    first
    | exact Option.noConfusion h
    | split at h
  simp only [Option.some.injEq, Prod.mk.injEq] at h
  obtain ⟨rfl, rfl, rfl⟩ := h
  exact ⟨_, _, _, _, _, by assumption, by assumption, by assumption, by assumption,
    by assumption, by assumption, by assumption, by assumption⟩

/-- On a 201 response with a well-formed order body,
`apply_for_cert_issuance` raises exactly the `NameError` for the unbound
`finalize_url` of its `return` statement. -/
theorem apply_err_nameError (cfg : ClientConfig) (env : Env) (s : ClientState)
    (a f c : String) (hn : (hexOfNat cfg.account_n).length % 2 = 0)
    (hst : (env.respond s.httpCount).status_code = 201)
    (hparse : parseOrder (env.respond s.httpCount) = some (a, f, c)) :
    resultErr (apply_for_cert_issuance cfg env s) = some (.nameError "finalize_url") := by
  obtain ⟨j, auths, a0, fj, cj, hbody, hauths, hidx, hstr1, hfin, hstr2, hcert, hstr3⟩ :=
    parseOrder_some hparse
  set s1 : ClientState := { s with log := s.log ++ ["apply_for_cert_issuance"] } with hs1
  have hs1h : s1.httpCount = s.httpCount := rfl
  have hdump : ∃ hdr, get_acme_header cfg s.kid (env.nonces s.nonceCount)
      cfg.ACME_NEW_ORDER_URL = .ok hdr ∧
      ∃ hd, jsonDumpsDefault (.obj hdr) = .ok hd := by
    by_cases hin : cfg.ACME_NEW_ORDER_URL = cfg.ACME_NEW_ACCOUNT_URL ∨
        cfg.ACME_NEW_ORDER_URL = cfg.ACME_REVOKE_CERT_URL ∨
        cfg.ACME_NEW_ORDER_URL = "GET_THUMBPRINT"
    · exact ⟨_, get_acme_header_jwk cfg s.kid _ _ hin hn, _, rfl⟩
    · refine ⟨_, get_acme_header_kid cfg s.kid _ _ hin, ?_⟩
      cases s.kid <;> exact ⟨_, rfl⟩
  obtain ⟨hdr, hh, hd, hhd⟩ := hdump
  obtain ⟨data, hms⟩ := make_signed_signed cfg env cfg.ACME_NEW_ORDER_URL
    (.obj (.cons "identifiers" (.arr (.cons
      (.obj (.cons "type" (.str "dns") (.cons "value" (.str cfg.domain_name) .nil)))
      .nil)) .nil)) s1 _ hd hdr rfl rfl hh hhd
  unfold apply_for_cert_issuance
  simp only [bind_apply, logStep, ← hs1, hms, hs1h, hst, ne_eq, not_true_eq_false,
    if_false, liftE, hbody, hauths, hidx, hstr1, hfin, hstr2, hcert, hstr3]
  simp only [show evalName (applyLocals a f c) "authorization_url" = .ok a from rfl,
    evalName_finalize_url, resultErr]

/-- `apply_for_cert_issuance` raises on every path: a bad status raises
`ValueError`, a missing or malformed body raises while being read, and the
well-formed 201 path ends at the unbound `finalize_url`. -/
theorem apply_alwaysErr (cfg : ClientConfig) (env : Env) :
    AlwaysErr (apply_for_cert_issuance cfg env) := by
  unfold apply_for_cert_issuance
  refine alwaysErr_bind fun _ => alwaysErr_bind fun resp => ?_
  split
  · exact alwaysErr_mThrow _
  · refine alwaysErr_bind fun j => alwaysErr_bind fun auths => ?_
    refine alwaysErr_bind fun a0 => alwaysErr_bind fun au => ?_
    refine alwaysErr_bind fun fj => alwaysErr_bind fun fi => ?_
    refine alwaysErr_bind fun cj => alwaysErr_bind fun cu => ?_
    refine alwaysErr_bind fun av => ?_
    exact alwaysErr_bind_left (alwaysErr_liftE_error (evalName_finalize_url au fi cu)) _

theorem resultErr_bind_ok {m : M α} {f : α → M β} {s s2 : ClientState} {a : α}
    (h : m s = .ok a s2) : resultErr ((m >>= f) s) = resultErr (f a s2) := by
  rw [bind_apply, h]

theorem resultErr_bind_left {m : M α} {f : α → M β} (hm : AlwaysErr m)
    (s : ClientState) : resultErr ((m >>= f) s) = resultErr (m s) := by
  rw [bind_apply]
  obtain ⟨e, s2, h⟩ := hm s
  rw [h]
  rfl

theorem dnsFrame_bind_of_err {m : M α} (hm : DnsFrame m) (he : AlwaysErr m)
    (f : α → M β) : DnsFrame (m >>= f) := by
  intro s
  rw [bind_apply]
  obtain ⟨e, s2, hs2⟩ := he s
  rw [hs2]
  have h := hm s
  rw [hs2] at h
  exact h

theorem logFrame_bind_of_err {bad : String} {m : M α} (hm : LogFrame bad m)
    (he : AlwaysErr m) (f : α → M β) : LogFrame bad (m >>= f) := by
  intro s
  rw [bind_apply]
  obtain ⟨e, s2, hs2⟩ := he s
  rw [hs2]
  obtain ⟨l, hl, hb⟩ := hm s
  rw [hs2] at hl
  exact ⟨l, hl, hb⟩

/-- Every run of the workflow raises: `apply_for_cert_issuance` cannot
return. -/
theorem workflow_alwaysErr (cfg : ClientConfig) (env : Env) :
    AlwaysErr (just_get_me_a_certificate cfg env) := by
  unfold just_get_me_a_certificate
  exact alwaysErr_bind fun _ => alwaysErr_bind fun _ =>
    alwaysErr_bind_left (apply_alwaysErr cfg env) _

/-- No run of the workflow touches the DNS trace: the failure happens before
`create_dns_record`. -/
theorem workflow_dnsFrame (cfg : ClientConfig) (env : Env) :
    DnsFrame (just_get_me_a_certificate cfg env) := by
  unfold just_get_me_a_certificate
  refine dnsFrame_bind (dnsFrame_logStep _) fun _ => ?_
  refine dnsFrame_bind (dnsFrame_acme_register cfg env) fun _ => ?_
  exact dnsFrame_bind_of_err (dnsFrame_apply cfg env) (apply_alwaysErr cfg env) _

/-- No run of the workflow ever logs (hence enters) `send_csr`. -/
theorem workflow_no_send_csr (cfg : ClientConfig) (env : Env) :
    LogFrame "send_csr" (just_get_me_a_certificate cfg env) := by
  unfold just_get_me_a_certificate
  refine logFrame_bind (logFrame_logStep (by decide)) fun _ => ?_
  refine logFrame_bind (logFrame_acme_register _ cfg env (by decide) (by decide)
    (by decide) (by decide)) fun _ => ?_
  exact logFrame_bind_of_err (logFrame_apply _ cfg env (by decide) (by decide)
    (by decide) (by decide)) (apply_alwaysErr cfg env) _

/-- C3: the top-level workflow is required to delete the DNS record it
created before returning or propagating an error.  In the code no run ever
reaches `create_dns_record`, let alone `delete_dns_record`: the DNS
collaborator trace of every run of `just_get_me_a_certificate` (hence of
`cert` and `renew`) is empty, and every run raises.  The cleanup the claim
requires can therefore never happen. -/
theorem workflow_dns_cleanup_never_runs (cfg : ClientConfig) (env : Env) :
    (finalState (runClient cfg env)).dnsOps = [] ∧ resultVal (runClient cfg env) = none := by
  constructor
  · have h := workflow_dnsFrame cfg env initState
    exact h
  · obtain ⟨e, s2, h⟩ := workflow_alwaysErr cfg env initState
    unfold runClient
    rw [h]
    rfl

/-- C4: the finalize request (`send_csr` on the order's finalize URL) must
not be issued before every authorization is valid.  In the code `send_csr`
is sequenced before the challenge response and the authorization poll, but
no run ever reaches it: every run of the workflow raises inside
`apply_for_cert_issuance`, and the step log of every run lacks
`send_csr`. -/
theorem send_csr_never_reached (cfg : ClientConfig) (env : Env) :
    "send_csr" ∉ (finalState (runClient cfg env)).log ∧
      resultVal (runClient cfg env) = none := by
  constructor
  · obtain ⟨l, hl, hb⟩ := workflow_no_send_csr cfg env initState
    unfold runClient
    rw [hl]
    simpa [initState] using hb
  · obtain ⟨e, s2, h⟩ := workflow_alwaysErr cfg env initState
    unfold runClient
    rw [h]
    rfl

/-- C10: in every environment in which `acme_register` succeeds (201/409
with a `Location` header, and a key whose modulus hex has even length, so
the jwk builds) and the new-order request returns HTTP 201 with a
well-formed order body, the workflow raises — the `NameError` for the
never-bound `finalize_url` in `apply_for_cert_issuance`'s return — instead
of returning a certificate. -/
theorem just_get_me_a_certificate_always_raises (cfg : ClientConfig) (env : Env)
    (hn : (hexOfNat cfg.account_n).length % 2 = 0)
    (hreg : ((env.respond 0).status_code = 201 ∨ (env.respond 0).status_code = 409) ∧
      (env.respond 0).location.isSome = true)
    (horder : (env.respond 1).status_code = 201 ∧
      (parseOrder (env.respond 1)).isSome = true) :
    resultErr (runClient cfg env) = some (.nameError "finalize_url") := by
  obtain ⟨hst, hloc⟩ := hreg
  obtain ⟨k, hk⟩ := Option.isSome_iff_exists.mp hloc
  obtain ⟨hst2, hp⟩ := horder
  obtain ⟨⟨a, f, c⟩, hparse⟩ := Option.isSome_iff_exists.mp hp
  obtain ⟨data, hreg_eq⟩ := acme_register_ok cfg env
    { nonceCount := 0, httpCount := 0, kid := none, dnsOps := [], requests := [],
      log := ["just_get_me_a_certificate"] } k hn hst hk
  have hlog : logStep "just_get_me_a_certificate" initState =
      MRes.ok ()
        { nonceCount := 0, httpCount := 0, kid := none, dnsOps := [],
          requests := [], log := ["just_get_me_a_certificate"] } := rfl
  unfold runClient just_get_me_a_certificate
  rw [resultErr_bind_ok hlog]
  dsimp only
  rw [resultErr_bind_ok hreg_eq]
  dsimp only
  rw [resultErr_bind_left (apply_alwaysErr cfg env)]
  exact apply_err_nameError cfg env _ a f c hn hst2 hparse

def cfgW : ClientConfig :=
  { domain_name := "example.com", registration_recovery_email := none,
    PRIOR_REGISTERED := false, account_e := 65537, account_n := 43981,
    csr := [48, 130], certificate_chain := utf8Bytes "CHAIN",
    ACME_NEW_ACCOUNT_URL := "https://ca/newAccount",
    ACME_NEW_ORDER_URL := "https://ca/newOrder",
    ACME_REVOKE_CERT_URL := "https://ca/revokeCert" }

def envW : Env :=
  { nonces := fun i => "nonce-" ++ toString i,
    respond := fun _ => { status_code := 200 },
    poll := fun _ => .status "pending",
    sign := fun _ => [1, 2, 3],
    sha256 := fun bs => bs ++ [0] }

def cfgOdd : ClientConfig := { cfgW with account_n := 2748 }

/-- C5 (amended): every protected header carries alg RS256, the freshly
fetched nonce and the target url; it carries jwk (kty RSA, with `e` the
base64url of the even-length-padded big-endian exponent bytes and `n` the
base64url of the big-endian modulus bytes) and no kid exactly on the
new-account URL, the revoke-cert URL and the `GET_THUMBPRINT` pseudo-target,
and kid with no jwk on every other URL — provided the modulus hex has even
length (the code pads only the exponent hex, so an odd-length modulus hex
makes the call fail instead, see the counterexample). -/
theorem get_acme_header_selection (cfg : ClientConfig) (env : Env) (s : ClientState)
    (url : String) (hn : (hexOfNat cfg.account_n).length % 2 = 0) :
    ∃ hdr, get_acme_headerM cfg env url s = .ok hdr (headerStepState s) ∧
      findField hdr "alg" = some (.str "RS256") ∧
      findField hdr "nonce" = some (.str (env.nonces s.nonceCount)) ∧
      findField hdr "url" = some (.str url) ∧
      ((url = cfg.ACME_NEW_ACCOUNT_URL ∨ url = cfg.ACME_REVOKE_CERT_URL ∨
          url = "GET_THUMBPRINT") →
        findField hdr "jwk" = some (jwkSpecJson cfg.account_e cfg.account_n) ∧
        findField hdr "kid" = none) ∧
      (¬ (url = cfg.ACME_NEW_ACCOUNT_URL ∨ url = cfg.ACME_REVOKE_CERT_URL ∨
          url = "GET_THUMBPRINT") →
        findField hdr "kid" =
          some (match s.kid with | some k => .str k | none => .null) ∧
        findField hdr "jwk" = none) := by
  by_cases hin : url = cfg.ACME_NEW_ACCOUNT_URL ∨ url = cfg.ACME_REVOKE_CERT_URL ∨
      url = "GET_THUMBPRINT"
  · refine ⟨jwkHeaderFields cfg.account_e cfg.account_n (env.nonces s.nonceCount) url,
      ?_, ?_, ?_, ?_, fun _ => ⟨?_, ?_⟩, fun hno => absurd hin hno⟩
    · rw [get_acme_headerM_run, get_acme_header_jwk cfg s.kid _ _ hin hn]
    all_goals rfl
  · refine ⟨kidHeaderFields s.kid (env.nonces s.nonceCount) url,
      ?_, ?_, ?_, ?_, fun hyes => absurd hyes hin, fun _ => ⟨?_, ?_⟩⟩
    · rw [get_acme_headerM_run, get_acme_header_kid cfg s.kid _ _ hin]
    all_goals rfl

/-- Witness: the amended C5 theorem at a concrete client and target. -/
theorem get_acme_header_selection_witness :
    ∃ hdr, get_acme_headerM cfgW envW "GET_THUMBPRINT" initState =
        .ok hdr (headerStepState initState) ∧
      findField hdr "alg" = some (.str "RS256") ∧
      findField hdr "nonce" = some (.str (envW.nonces initState.nonceCount)) ∧
      findField hdr "url" = some (.str "GET_THUMBPRINT") ∧
      (("GET_THUMBPRINT" = cfgW.ACME_NEW_ACCOUNT_URL ∨
          "GET_THUMBPRINT" = cfgW.ACME_REVOKE_CERT_URL ∨
          "GET_THUMBPRINT" = "GET_THUMBPRINT") →
        findField hdr "jwk" = some (jwkSpecJson cfgW.account_e cfgW.account_n) ∧
        findField hdr "kid" = none) ∧
      (¬ ("GET_THUMBPRINT" = cfgW.ACME_NEW_ACCOUNT_URL ∨
          "GET_THUMBPRINT" = cfgW.ACME_REVOKE_CERT_URL ∨
          "GET_THUMBPRINT" = "GET_THUMBPRINT") →
        findField hdr "kid" =
          some (match initState.kid with | some k => .str k | none => .null) ∧
        findField hdr "jwk" = none) :=
  get_acme_header_selection cfgW envW initState "GET_THUMBPRINT" (by decide)

/-- C5 counterexample: for the account key with modulus 2748 (hex `abc`,
odd length) the claim's jwk header is not produced at all —
`get_acme_header` raises the `binascii` odd-length error, because the code
pads the exponent hex but not the modulus hex. -/
theorem get_acme_header_odd_modulus_counterexample :
    resultVal (get_acme_headerM cfgOdd envW "GET_THUMBPRINT" initState) = none ∧
    resultErr (get_acme_headerM cfgOdd envW "GET_THUMBPRINT" initState) =
      some (.binasciiError "Odd-length string") := by
  decide
/-- A well-formed order body: one authorization URL, a finalize URL, a
certificate URL. -/
def orderBodyW : PyJson :=
  .obj (.cons "authorizations" (.arr (.cons (.str "https://ca/authz/1") .nil))
    (.cons "finalize" (.str "https://ca/finalize/1")
      (.cons "certificate" (.str "https://ca/cert/1") .nil)))

/-- A server that answers every request with HTTP 201, a `Location` header
and the well-formed order body. -/
def envOrder : Env :=
  { envW with respond := fun _ =>
      { status_code := 201, location := some "https://ca/acct/1",
        body := .ok orderBodyW } }

/-- A server that answers every request with HTTP 400. -/
def envBad : Env :=
  { envW with respond := fun _ => { status_code := 400, logText := "bad" } }

/-- C1: on a 201 new-order response with a well-formed body,
`apply_for_cert_issuance` does not return the three extracted URLs — its
`return` statement references the never-bound name `finalize_url` and the
call raises `NameError`; on any other status it raises the `ValueError`
carrying the status code and response body, as the claim says. -/
theorem apply_for_cert_issuance_crashes_on_created_order :
    resultErr (apply_for_cert_issuance cfgW envOrder initState) =
      some (.nameError "finalize_url") ∧
    resultErr (apply_for_cert_issuance cfgW envBad initState) =
      some (.valueError
        "Error applying for certificate issuance: status_code=400 response=bad") := by
  decide

/-- C10 witness: the workflow raises the `finalize_url` `NameError` in the
concrete environment where registration and order creation succeed. -/
theorem just_get_me_a_certificate_always_raises_witness :
    resultErr (runClient cfgW envOrder) = some (.nameError "finalize_url") :=
  just_get_me_a_certificate_always_raises cfgW envOrder (by decide) (by decide)
    (by decide)

/-- The poll loop's outcome is fuel-independent once the fuel covers the
remaining attempt budget, so running it with fuel 6 from zero checks is the
loop itself. -/
theorem checkAuthLoop_fuel (poll : Nat → PollResult) (a b : String) :
    ∀ (f1 : Nat), ∀ (f2 gets checks : Nat), checks ≤ 5 → 6 - checks ≤ f1 →
      6 - checks ≤ f2 →
      checkAuthLoop poll a b f1 gets checks = checkAuthLoop poll a b f2 gets checks := by
  intro f1
  induction f1 with
  | zero => intro f2 gets checks h5 h1 h2; omega
  | succ g1 ih =>
    intro f2 gets checks h5 h1 h2
    cases f2 with
    | zero => omega
    | succ g2 =>
      simp only [checkAuthLoop]
      cases hp : poll gets with
      | exc e => rfl
      | status st =>
        by_cases hgt : 5 < checks + 1
        · simp only [if_pos hgt]
        · simp only [if_neg hgt]
          by_cases hpd : st = "pending"
          · simp only [if_pos hpd]
            exact ih g2 (gets + 1) (checks + 1) (by omega) (by omega) (by omega)
          · simp only [if_neg hpd]
            by_cases hvd : st = "valid"
            · simp only [if_pos hvd]
            · simp only [if_neg hvd]
              exact ih g2 (gets + 1) (checks + 1) (by omega) (by omega) (by omega)

/-- C2: against an authorization endpoint that always reports `pending`,
`check_authorization_status` performs six status checks (its own counter's
final value: the guard `number_of_checks > 5` runs only after the sixth
GET), never invokes `delete_dns_record` (the cleanup call crashes first on
the unbound name `domain_name`), and propagates that `NameError` — not a
polling-exhaustion error — to the caller. -/
theorem check_authorization_status_pending_outcome :
    check_authorization_status (fun _ => .status "pending")
      "https://ca/authz/1" "dns-value" =
      { checks := 6, dnsOps := [], result := .error (.nameError "domain_name") } := by
  decide

/-- C8: `get_certificate_chain` accepts a 200 body that contains the END
marker but no BEGIN marker (the `and` in the marker check makes the BEGIN
literal a truthy no-op), returning the body as the chain instead of failing;
a status outside 200/201 does raise the `ValueError` with status and body. -/
theorem get_certificate_chain_accepts_missing_begin :
    get_certificate_chain 200 (utf8Bytes "-----END CERTIFICATE-----") "" =
      .ok (utf8Bytes "-----END CERTIFICATE-----") ∧
    containsBytes beginMarker (utf8Bytes "-----END CERTIFICATE-----") = false ∧
    get_certificate_chain 404 [] "nf" = .error (.valueError
      "Error while getting Acme certificate chain: status_code=404 response=nf") := by
  decide

/-- A server that answers the certificate download with HTTP 200 and DER
bytes in `content`. -/
def envCert : Env :=
  { envW with respond := fun _ => { status_code := 200, content := [48, 130, 1, 1] } }

/-- A server that answers with HTTP 404. -/
def envNotFound : Env :=
  { envW with respond := fun _ => { status_code := 404, logText := "nf" } }

/-- C9: on a 200 certificate download the code never returns the PEM — it
calls `.encode('utf-8')` on the bytes `response.content` and raises
`AttributeError`; on any other status it raises the `ValueError` the claim
describes. -/
theorem get_certificate_crashes_on_success_response :
    resultErr (get_certificate cfgW envCert "https://ca/cert/1" initState) =
      some (.attributeError "bytes object has no attribute encode") ∧
    resultErr (get_certificate cfgW envNotFound "https://ca/cert/1" initState) =
      some (.valueError
        "Error fetching signed certificate: status_code=404 response=nf") := by
  decide

/-- The nonce a sent request carries in its protected header, when it is a
signed POST. -/
def reqNonce (r : SentReq) : Option String :=
  match r.protectedHeader with
  | some h =>
    match findField h "nonce" with
    | some (.str v) => some v
    | _ => none
  | none => none

/-- A sequence of `make_signed_acme_request` calls, one per (url, payload)
pair, as the workflow issues them. -/
def runSignedList (cfg : ClientConfig) (env : Env) : List (String × Payload) → M Unit
  | [] => pure ()
  | (url, p) :: rest => do
    let _ ← make_signed_acme_request cfg env url p
    runSignedList cfg env rest

def exceptIsOk : Except ε α → Bool
  | .ok _ => true
  | .error _ => false

/-- With an even modulus hex the protected header always builds, always
serializes, and its `nonce` field is the nonce it was built over. -/
theorem header_build_ok (cfg : ClientConfig) (kid : Option String) (nonce url : String)
    (hn : (hexOfNat cfg.account_n).length % 2 = 0) :
    ∃ hdr hd, get_acme_header cfg kid nonce url = .ok hdr ∧
      jsonDumpsDefault (.obj hdr) = .ok hd ∧
      findField hdr "nonce" = some (.str nonce) := by
  by_cases hin : url = cfg.ACME_NEW_ACCOUNT_URL ∨ url = cfg.ACME_REVOKE_CERT_URL ∨
      url = "GET_THUMBPRINT"
  · exact ⟨_, _, get_acme_header_jwk cfg kid nonce url hin hn, rfl, rfl⟩
  · cases kid with
    | none => exact ⟨_, _, get_acme_header_kid cfg none nonce url hin, rfl, rfl⟩
    | some k => exact ⟨_, _, get_acme_header_kid cfg (some k) nonce url hin, rfl, rfl⟩

/-- C7: running N non-sentinel signed requests in sequence fetches exactly N
nonces (the counter advances by N), and the i-th request's protected header
carries exactly the i-th freshly fetched nonce — each nonce fetch feeds the
one request it was fetched for; when the nonce stream never repeats, the N
sent nonces are pairwise distinct. -/
theorem nonce_freshness (cfg : ClientConfig) (env : Env)
    (rs : List (String × Payload)) (s : ClientState)
    (hn : (hexOfNat cfg.account_n).length % 2 = 0)
    (hsent : ∀ pr ∈ rs, isSentinel pr.2 = false)
    (hser : ∀ pr ∈ rs, exceptIsOk (jsonDumpsDefault (payloadJson pr.2)) = true) :
    (∃ s2, runSignedList cfg env rs s = .ok () s2 ∧
      s2.nonceCount = s.nonceCount + rs.length ∧
      s2.requests.map reqNonce = s.requests.map reqNonce ++
        (List.range rs.length).map (fun i => some (env.nonces (s.nonceCount + i)))) ∧
    (Function.Injective env.nonces →
      ((List.range rs.length).map
        (fun i => some (env.nonces (s.nonceCount + i)))).Nodup) := by
  constructor
  · induction rs generalizing s with
    | nil => exact ⟨s, rfl, by simp, by simp⟩
    | cons pr rest ih =>
      obtain ⟨url, p⟩ := pr
      have hs0 : isSentinel p = false := hsent (url, p) (List.mem_cons_self _ _)
      have hp0 : exceptIsOk (jsonDumpsDefault (payloadJson p)) = true :=
        hser (url, p) (List.mem_cons_self _ _)
      obtain ⟨pd, hpd⟩ : ∃ pd, jsonDumpsDefault (payloadJson p) = .ok pd := by
        cases hc : jsonDumpsDefault (payloadJson p) with
        | ok t => exact ⟨t, rfl⟩
        | error e => rw [hc] at hp0; exact absurd hp0 (by simp [exceptIsOk])
      obtain ⟨hdr, hd, hh, hhd, hnf⟩ := header_build_ok cfg s.kid
        (env.nonces s.nonceCount) url hn
      obtain ⟨data, hms⟩ := make_signed_signed cfg env url p s pd hd hdr hs0 hpd hh hhd
      obtain ⟨s2, hrun, hcount, hmap⟩ := ih
        (signedStepState s url hdr data)
        (fun q hq => hsent q (List.mem_cons_of_mem _ hq))
        (fun q hq => hser q (List.mem_cons_of_mem _ hq))
      have hsn : (signedStepState s url hdr data).nonceCount = s.nonceCount + 1 := rfl
      have hsr : (signedStepState s url hdr data).requests =
        s.requests ++ [⟨"POST", url, some hdr, some data⟩] := rfl
      rw [hsn] at hcount hmap
      rw [hsr] at hmap
      refine ⟨s2, ?_, ?_, ?_⟩
      · show (make_signed_acme_request cfg env url p >>=
          fun _ => runSignedList cfg env rest) s = .ok () s2
        rw [bind_apply, hms]
        exact hrun
      · simp only [List.length_cons]
        omega
      · rw [hmap]
        have hreq : reqNonce ⟨"POST", url, some hdr, some data⟩ =
            some (env.nonces s.nonceCount) := by
          simp only [reqNonce, hnf]
        simp only [signedStepState, List.map_append, List.map_cons, List.map_nil,
          List.length_cons, List.range_succ_eq_map, List.map_map, hreq]
        rw [List.append_assoc]
        congr 1
        simp only [List.cons_append, List.nil_append]
        congr 1
        apply List.map_congr_left
        intro i _
        simp only [Function.comp_apply]
        congr 2
        omega
  · intro hinj
    refine (List.nodup_range _).map ?_
    intro i j hij
    simp only [Option.some.injEq] at hij
    have := hinj hij
    omega

/-- C7 witness: two signed requests from the initial state fetch two nonces
and carry them in order. -/
theorem nonce_freshness_witness :
    (∃ s2, runSignedList cfgW envW
        [("https://ca/newOrder", .obj (.cons "a" (.str "1") .nil)),
         ("https://ca/other", .obj (.cons "b" (.str "2") .nil))] initState =
        .ok () s2 ∧
      s2.nonceCount = initState.nonceCount + 2 ∧
      s2.requests.map reqNonce = initState.requests.map reqNonce ++
        (List.range 2).map (fun i => some (envW.nonces (initState.nonceCount + i)))) ∧
    (Function.Injective envW.nonces →
      ((List.range 2).map
        (fun i => some (envW.nonces (initState.nonceCount + i)))).Nodup) :=
  nonce_freshness cfgW envW
    [("https://ca/newOrder", .obj (.cons "a" (.str "1") .nil)),
     ("https://ca/other", .obj (.cons "b" (.str "2") .nil))] initState
    (by decide) (by decide) (by decide)

theorem strAppend_assoc (a b c : String) : a ++ b ++ c = a ++ (b ++ c) := by
  cases a; cases b; cases c
  show String.mk _ = String.mk _
  rw [List.append_assoc]

theorem flatten_map_escape {l : List Char} (h : ∀ c ∈ l, jsonEscapeChar c = [c]) :
    (l.map jsonEscapeChar).flatten = l := by
  induction l with
  | nil => rfl
  | cons c rest ih =>
    simp only [List.map_cons, List.flatten_cons, h c (List.mem_cons_self _ _),
      ih (fun d hd => h d (List.mem_cons_of_mem _ hd)), List.singleton_append]

theorem jsonQuote_of_safe (s : String) (h : ∀ c ∈ s.data, jsonEscapeChar c = [c]) :
    jsonQuote s = "\"" ++ s ++ "\"" := by
  unfold jsonQuote
  rw [flatten_map_escape h]
  cases s
  show String.mk _ = String.mk _
  simp

theorem safe_b64UrlChar (i : Nat) : jsonEscapeChar (b64UrlChar i) = [b64UrlChar i] := by
  by_cases h : i < 64
  · exact (by decide : ∀ j, j < 64 → jsonEscapeChar (b64UrlChar j) = [b64UrlChar j]) i h
  · have h2 : b64UrlChar i = '_' := by
      unfold b64UrlChar
      rw [if_neg (by omega), if_neg (by omega), if_neg (by omega), if_neg (by omega)]
    rw [h2]
    decide

theorem b64Groups_char :
    ∀ (bs : List UInt8) (c : Char), c ∈ b64Groups b64UrlChar bs →
      (∃ i, c = b64UrlChar i) ∨ c = '='
  | [], c, hc => by simp [b64Groups] at hc
  | [a], c, hc => by
    simp only [b64Groups, List.mem_cons, List.not_mem_nil, or_false] at hc
    rcases hc with rfl | rfl | rfl | rfl
    exacts [Or.inl ⟨_, rfl⟩, Or.inl ⟨_, rfl⟩, Or.inr rfl, Or.inr rfl]
  | [a, b], c, hc => by
    simp only [b64Groups, List.mem_cons, List.not_mem_nil, or_false] at hc
    rcases hc with rfl | rfl | rfl | rfl
    exacts [Or.inl ⟨_, rfl⟩, Or.inl ⟨_, rfl⟩, Or.inl ⟨_, rfl⟩, Or.inr rfl]
  | a :: b :: d :: rest, c, hc => by
    simp only [b64Groups, List.mem_cons] at hc
    rcases hc with rfl | rfl | rfl | rfl | hmem
    · exact Or.inl ⟨_, rfl⟩
    · exact Or.inl ⟨_, rfl⟩
    · exact Or.inl ⟨_, rfl⟩
    · exact Or.inl ⟨_, rfl⟩
    · exact b64Groups_char rest c hmem

theorem safe_calculate_b64 (bs : List UInt8) :
    ∀ c ∈ (calculate_safe_base64 (.bytes bs)).data, jsonEscapeChar c = [c] := by
  intro c hc
  have hdata : (calculate_safe_base64 (.bytes bs)).data =
      stripPadChars (b64Groups b64UrlChar bs) := rfl
  rw [hdata] at hc
  unfold stripPadChars at hc
  rw [List.mem_reverse] at hc
  have hc2 : c ∈ (b64Groups b64UrlChar bs).reverse :=
    List.Sublist.mem hc (List.dropWhile_sublist _)
  rw [List.mem_reverse] at hc2
  rcases b64Groups_char bs c hc2 with ⟨i, rfl⟩ | rfl
  · exact safe_b64UrlChar i
  · decide

/-- The canonical JSON text of the public JWK as the spec words it: keys
sorted (`e`, `kty`, `n`), compact separators, values the base64url texts of
the big-endian key numbers. -/
def canonicalJwkJson (e n : Nat) : String :=
  "\x7b" ++ "\"e\"" ++ ":" ++ "\"" ++ calculate_safe_base64 (.bytes (beBytes e)) ++
    "\"" ++ "," ++ "\"kty\"" ++ ":" ++ "\"RSA\"" ++ "," ++ "\"n\"" ++ ":" ++ "\"" ++
    calculate_safe_base64 (.bytes (beBytes n)) ++ "\"" ++ "\x7d"

set_option maxHeartbeats 2000000 in
theorem jsonDumpsCanonical_jwkSpec (e n : Nat) :
    jsonDumpsCanonical (jwkSpecJson e n) = .ok (canonicalJwkJson e n) := by
  have h0 : jsonDumpsCanonical (jwkSpecJson e n) =
      .ok ("\x7b" ++ (jsonQuote "e" ++ ":" ++
          jsonQuote (calculate_safe_base64 (.bytes (beBytes e))) ++ "," ++
          (jsonQuote "kty" ++ ":" ++ jsonQuote "RSA") ++ "," ++
          (jsonQuote "n" ++ ":" ++
            jsonQuote (calculate_safe_base64 (.bytes (beBytes n))))) ++ "\x7d") := rfl
  rw [h0, jsonQuote_of_safe _ (safe_calculate_b64 _), jsonQuote_of_safe _ (safe_calculate_b64 _)]
  rw [show jsonQuote "e" = "\"e\"" from rfl, show jsonQuote "kty" = "\"kty\"" from rfl,
    show jsonQuote "n" = "\"n\"" from rfl, show jsonQuote "RSA" = "\"RSA\"" from rfl]
  unfold canonicalJwkJson
  congr 1
  simp only [strAppend_assoc]
/-- The thumbprint as the spec computes it: base64url of the SHA-256 of the
canonical JWK JSON. -/
def thumbprintSpec (sha : List UInt8 → List UInt8) (e n : Nat) : String :=
  calculate_safe_base64 (.bytes (sha (utf8Bytes (canonicalJwkJson e n))))

theorem get_keyauthorization_val (cfg : ClientConfig) (env : Env) (token : String)
    (s : ClientState) (hn : (hexOfNat cfg.account_n).length % 2 = 0) :
    resultVal (get_keyauthorization cfg env token s) =
      some (token ++ "." ++ thumbprintSpec env.sha256 cfg.account_e cfg.account_n,
        calculate_safe_base64 (.bytes (env.sha256 (utf8Bytes
          (token ++ "." ++ thumbprintSpec env.sha256 cfg.account_e cfg.account_n))))) := by
  unfold get_keyauthorization thumbprintSpec
  simp only [bind_apply, logStep, get_acme_headerM_run,
    get_acme_header_jwk cfg s.kid (env.nonces s.nonceCount) "GET_THUMBPRINT"
      (Or.inr (Or.inr rfl)) hn,
    liftE,
    show dictGet (.obj (jwkHeaderFields cfg.account_e cfg.account_n
        (env.nonces s.nonceCount) "GET_THUMBPRINT")) "jwk" =
      .ok (jwkSpecJson cfg.account_e cfg.account_n) from rfl,
    jsonDumpsCanonical_jwkSpec, pure_apply, resultVal]

/-- C6: for a fixed account key, `get_keyauthorization(token)` is
deterministic — its value does not depend on the client state (in
particular not on the nonce that the embedded `get_acme_header` call
fetches) — and it returns the pair of the key authorization
`token + "." + thumbprint` (thumbprint the base64url SHA-256 of the
canonical sorted-compact JWK JSON) and the DNS record value, the base64url
SHA-256 of that key authorization. -/
theorem get_keyauthorization_deterministic (cfg : ClientConfig) (env : Env)
    (token : String) (s1 s2 : ClientState)
    (hn : (hexOfNat cfg.account_n).length % 2 = 0) :
    resultVal (get_keyauthorization cfg env token s1) =
      resultVal (get_keyauthorization cfg env token s2) ∧
    resultVal (get_keyauthorization cfg env token s1) =
      some (token ++ "." ++ thumbprintSpec env.sha256 cfg.account_e cfg.account_n,
        calculate_safe_base64 (.bytes (env.sha256 (utf8Bytes
          (token ++ "." ++ thumbprintSpec env.sha256 cfg.account_e cfg.account_n))))) := by
  refine ⟨?_, get_keyauthorization_val cfg env token s1 hn⟩
  rw [get_keyauthorization_val cfg env token s1 hn,
    get_keyauthorization_val cfg env token s2 hn]

/-- C6 witness: the determinism theorem at a concrete key and token, with
two different client states. -/
theorem get_keyauthorization_deterministic_witness :
    resultVal (get_keyauthorization cfgW envW "abc123" initState) =
      resultVal (get_keyauthorization cfgW envW "abc123"
        { initState with nonceCount := 7 }) ∧
    resultVal (get_keyauthorization cfgW envW "abc123" initState) =
      some ("abc123" ++ "." ++ thumbprintSpec envW.sha256 cfgW.account_e cfgW.account_n,
        calculate_safe_base64 (.bytes (envW.sha256 (utf8Bytes
          ("abc123" ++ "." ++
            thumbprintSpec envW.sha256 cfgW.account_e cfgW.account_n))))) :=
  get_keyauthorization_deterministic cfgW envW "abc123" initState
    { initState with nonceCount := 7 } (by decide)

/-- C6 counterexample: for the account key with modulus 2748 (hex `abc`,
odd length) `get_keyauthorization` does not return the claimed pair at
all — the embedded `get_acme_header("GET_THUMBPRINT")` call raises the
`binascii` odd-length error (the code pads the exponent hex but not the
modulus hex), so no key authorization or DNS record value is produced. -/
theorem get_keyauthorization_odd_modulus_counterexample :
    resultVal (get_keyauthorization cfgOdd envW "abc123" initState) = none ∧
    resultErr (get_keyauthorization cfgOdd envW "abc123" initState) =
      some (.binasciiError "Odd-length string") := by
  decide
end Sewer
